import Mathlib

/-!
# Focus, geometry and selection helpers of `pkg/gui/view_helpers.go`

A shallow embedding of the view helpers of the terminal UI: the selection
model (`changeSelectedLine`, `refreshSelectedLine`), the viewport geometry
(`focusPoint`), the options stringifier (`optionsMapToString`) and the focus
state machine (`switchFocus`, `nextView`, `previousView`, `returnFocus`,
`newLineFocused`).

Go's `int` is modelled as a 64-bit two's-complement integer: values are
carried in `Int` and every `+`/`-` of the source is wrapped by `wrapInt`.
-/

namespace Lazygit

/-! ## Machine integers -/

/-- Two's-complement wrap-around of Go's 64-bit `int`. -/
def wrapInt (x : Int) : Int :=
  (x + 9223372036854775808) % 18446744073709551616 - 9223372036854775808

/-- The value is representable as a Go `int` (64 bits). -/
def InInt (x : Int) : Prop :=
  -9223372036854775808 ≤ x ∧ x < 9223372036854775808

instance (x : Int) : Decidable (InInt x) := by
  unfold InInt
  exact inferInstance

/-- Go `a + b` on `int`. -/
def iadd (a b : Int) : Int := wrapInt (a + b)

/-- Go `a - b` on `int`. -/
def isub (a b : Int) : Int := wrapInt (a - b)

/-! ## Selection model (`changeSelectedLine`, `refreshSelectedLine`) -/

/-- Source `changeSelectedLine(line *int, total int, up bool)`: the value
returned is the content of `*line` after the call. -/
def changeSelectedLine (line total : Int) (up : Bool) : Int :=
  if up then
    if line = -1 ∨ line = 0 then line
    else isub line 1
  else
    if line = -1 ∨ line = isub total 1 then line
    else iadd line 1

/-- Source `refreshSelectedLine(line *int, total int)`: the value returned is
the content of `*line` after the call. -/
def refreshSelectedLine (line total : Int) : Int :=
  if line = -1 ∧ total > 0 then 0
  else if isub total 1 < line then isub total 1
  else line

/-- Invariant S1 of the selection state. -/
def S1 (line total : Int) : Prop := line = -1 ∨ (0 ≤ line ∧ line < total)

/-! ## Views -/

/-- The per-view surface of the View Service that the helpers read and
write. `width`/`height` are what `Size()` returns, `x0 .. y1` what
`Dimensions()` returns, `linesHeight` what `LinesHeight()` returns. -/
structure View where
  name : String
  x0 : Int
  y0 : Int
  x1 : Int
  y1 : Int
  width : Int
  height : Int
  ox : Int
  oy : Int
  cx : Int
  cy : Int
  linesHeight : Int
  buffer : String
  highlight : Bool
  editable : Bool
deriving DecidableEq, Repr

/-- Modelled from the spec: the View Service's `setCursor(x, y)` (the
terminal library is not part of the sources). The spec's geometry engine
"sets cursor to (x, y)" unconditionally; the error result the source tests
for is kept in the type. -/
def View.SetCursor (v : View) (x y : Int) : Except String View :=
  .ok { v with cx := x, cy := y }

/-- Modelled from the spec: the View Service's `setOrigin(x, y)` (the
terminal library is not part of the sources); assigns the origin. -/
def View.SetOrigin (v : View) (x y : Int) : Except String View :=
  .ok { v with ox := x, oy := y }

/-! ## Geometry engine (`focusPoint`) -/

/-- Source `focusPoint(cx, cy, v)`: `.ok v'` is the view after a `nil`
return, `.error e` a returned error. -/
def focusPoint (cx cy : Int) (v : View) : Except String View :=
  if cy < 0 then
    .ok v
  else
    let ox := v.ox
    let oy := v.oy
    let height := v.height
    let ly := isub height 1
    if ly > v.linesHeight then
      (v.SetCursor cx cy).bind fun v1 => v1.SetOrigin ox 0
    else if cy < oy then
      (v.SetCursor cx 0).bind fun v1 => v1.SetOrigin ox cy
    else if cy > iadd oy ly then
      (v.SetCursor cx ly).bind fun v1 => v1.SetOrigin ox (isub cy ly)
    else
      v.SetCursor cx (isub cy oy)

/-! ## Options stringifier (`optionsMapToString`) -/

/-- Go `sort.Strings`: the ascending rearrangement of the slice. -/
def sortStrings (l : List String) : List String :=
  l.insertionSort (· ≤ ·)

/-- Go `strings.Join(elems, sep)`. -/
def stringsJoin (elems : List String) (sep : String) : String :=
  sep.intercalate elems

/-- Source `optionsMapToString(optionsMap)`. The map is given as the list of
its entries in the order in which `range` happens to visit them. -/
def optionsMapToString (optionsMap : List (String × String)) : String :=
  let optionsArray := optionsMap.foldl
    (fun acc kd => acc ++ [kd.1 ++ ": " ++ kd.2]) ([] : List String)
  stringsJoin (sortStrings optionsArray) ", "

/-! ## Focus state machine -/

/-- The state the focus controller reads and writes. A Go `*gocui.View` is
represented by the name of the view it points to (`none` for `nil`); reads
and writes through the pointer go to the registry entry of that name. -/
structure Gui where
  /-- the View Service's registry of named views -/
  views : List View
  /-- the rendering stack, bottom first -/
  order : List String
  /-- name of `g.CurrentView()`, `none` when it is `nil` -/
  currentView : Option String
  /-- `g.Cursor` -/
  cursor : Bool
  /-- `gui.State.PreviousView`; the empty string when unset -/
  previousView : String
  /-- messages passed to `gui.Log` -/
  log : List String
  /-- names of the handlers and renderers of other panels invoked so far -/
  invoked : List String

/-- How a call ends: a `nil` return, a returned error, or a run-time panic;
each with the state the call leaves behind. -/
inductive Result where
  | ok (g : Gui)
  | error (e : String) (g : Gui)
  | panic (e : String) (g : Gui)

/-- The state a call leaves behind. -/
def Result.state : Result → Gui
  | .ok g => g
  | .error _ g => g
  | .panic _ g => g

/-- The call returned `nil`. -/
def Result.isOk : Result → Bool
  | .ok _ => true
  | _ => false

/-- The call aborted the process. -/
def Result.isPanic : Result → Bool
  | .panic _ _ => true
  | _ => false

/-- Modelled from the spec: the View Service's `view(name) → view | not-found`
(the terminal library is not part of the sources). -/
def Gui.View (g : Gui) (name : String) : Option View :=
  g.views.find? fun v => v.name == name

/-- Modelled from the spec: the View Service's `setCurrentView(name)`; `none`
is the not-found error. -/
def Gui.SetCurrentView (g : Gui) (name : String) : Option Gui :=
  if (g.View name).isSome then some { g with currentView := some name } else none

/-- Modelled from the spec: the View Service's `setViewOnTop(name)` (raise to
the top of the rendering stack); `none` is the not-found error. -/
def Gui.SetViewOnTop (g : Gui) (name : String) : Option Gui :=
  if (g.View name).isSome then
    some { g with order := g.order.erase name ++ [name] }
  else none

/-- The write `v.Highlight = b` through a view pointer named `name`. -/
def Gui.setHighlight (g : Gui) (name : String) (b : Bool) : Gui :=
  { g with views := g.views.map fun v =>
      if v.name == name then { v with highlight := b } else v }

/-- Reading `Highlight` of the view named `name`; `none` when there is no such view. -/
def Gui.highlightOf (g : Gui) (name : String) : Option Bool :=
  (g.View name).map fun v => v.highlight

/-- Reading `v.Editable` through a view pointer named `name`. -/
def Gui.editableOf (g : Gui) (name : String) : Bool :=
  ((g.View name).map fun v => v.editable).getD false

/-- The call `gui.Log.Info(message)` (also used for `gui.Log.Error`). -/
def Gui.logInfo (g : Gui) (message : String) : Gui :=
  { g with log := g.log ++ [message] }

/-- The collaborators of this file that live in other panels: the selection
handlers (`handleMenuSelect`, `handleFileSelect`, ...), `refreshMergePanel`
and the three options renderers. `run name g` is what the function called
`name` does to the state and the error it returns (`none` for `nil`). -/
structure Env where
  run : String → Gui → Gui × Option String

/-- Invoking a collaborator: the invocation is recorded, then it runs. -/
def Env.call (env : Env) (name : String) (g : Gui) : Result :=
  let r := env.run name { g with invoked := g.invoked ++ [name] }
  match r.2 with
  | none => .ok r.1
  | some e => .error e r.1

/-- The collaborators leave the focus state alone: previous view, current
view, the invocation record, and which views exist with which `Highlight`. -/
structure Env.Framed (env : Env) : Prop where
  previousView : ∀ name g, (env.run name g).1.previousView = g.previousView
  currentView : ∀ name g, (env.run name g).1.currentView = g.currentView
  invoked : ∀ name g, (env.run name g).1.invoked = g.invoked
  highlightOf : ∀ name g n, (env.run name g).1.highlightOf n = g.highlightOf n

/-- Every collaborator returns `nil`. -/
def Env.Succeeds (env : Env) : Prop := ∀ name g, (env.run name g).2 = none

/-- Collaborators that do nothing and return `nil`. -/
def Env.idle : Env := ⟨fun _ g => (g, none)⟩

/-- Source `var cyclableViews`. -/
def cyclableViews : List String := ["status", "files", "branches", "commits", "stash"]

/-- Go slice indexing `l[i]`; `none` is the index-out-of-range panic. -/
def sliceIndex (l : List String) (i : Int) : Option String :=
  if i < 0 then none else l[i.toNat]?

/-- Source `utils.IncludesString(list, a)`. -/
def IncludesString (list : List String) (a : String) : Bool :=
  list.any fun b => b == a

/-- Source `renderPanelOptions()`: dispatch on the current view's name. -/
def renderPanelOptions (env : Env) (g : Gui) : Result :=
  match g.currentView with
  | none => .panic "nil pointer dereference" g
  | some name =>
    if name = "menu" then env.call "renderMenuOptions" g
    else if name = "main" then env.call "renderMergeOptions" g
    else env.call "renderGlobalOptions" g

/-- Source `newLineFocused(g, v)`, `v` a non-nil view pointer named `name`. -/
def newLineFocused (env : Env) (g : Gui) (name : String) : Result :=
  if name = "menu" then env.call "handleMenuSelect" g
  else if name = "status" then env.call "handleStatusSelect" g
  else if name = "files" then env.call "handleFileSelect" g
  else if name = "branches" then env.call "handleBranchSelect" g
  else if name = "commits" then env.call "handleCommitSelect" g
  else if name = "stash" then env.call "handleStashEntrySelect" g
  else if name = "confirmation" then .ok g
  else if name = "commitMessage" then env.call "handleCommitFocused" g
  else if name = "credentials" then env.call "handleCredentialsViewFocused" g
  else if name = "main" then
    -- the result of `gui.refreshMergePanel(g)` is dropped
    .ok ((env.call "refreshMergePanel" g).state.setHighlight name false)
  else if name = "staging" then .ok g
  else .panic "NoViewMachingNewLineFocusedSwitchStatement" g

/-- The first block of `switchFocus`: what happens to the old view. -/
def leaveOldView (g : Gui) (oldView : Option String) : Gui :=
  match oldView with
  | none => g
  | some old =>
    if old ≠ "confirmation" then
      let g1 := (g.setHighlight old false).logInfo ("settingPreviewsViewTo " ++ old)
      let secondClassPanels := ["confirmation", "menu"]
      if !IncludesString secondClassPanels old then
        { g1 with previousView := old }
      else g1
    else g

/-- Source `switchFocus(g, oldView, newView)`. -/
def switchFocus (env : Env) (g : Gui) (oldView newView : Option String) : Result :=
  let g1 := leaveOldView g oldView
  match newView with
  | none => .panic "nil pointer dereference" g1
  | some new =>
    let g2 := (g1.setHighlight new true).logInfo ("newFocusedViewIs " ++ new)
    match g2.SetCurrentView new with
    | none => .error "unknown view" g2
    | some g3 =>
      match g3.SetViewOnTop new with
      | none => .error "unknown view" g3
      | some g4 =>
        let g5 := { g4 with cursor := g4.editableOf new }
        match renderPanelOptions env g5 with
        | .ok g6 => newLineFocused env g6 new
        | r => r

/-- What the scan of `cyclableViews` in `nextView`/`previousView` ends with. -/
inductive Scan where
  /-- the loop was left with this `focusedViewName` -/
  | target (focusedViewName : String)
  /-- the view is not in the list: log and `return nil` -/
  | notListed
  /-- an index expression was out of range -/
  | outOfRange
deriving DecidableEq, Repr

/-- The `for i := range cyclableViews` loop of `nextView`, from index `i` on
(`n` iterations left). -/
def nextViewLoop (name : String) : Nat → Int → Scan
  | 0, _ => .target ""
  | n + 1, i =>
    if some name = sliceIndex cyclableViews i then
      match sliceIndex cyclableViews (i + 1) with
      | some t => .target t
      | none => .outOfRange
    else if i = (cyclableViews.length : Int) - 1 then .notListed
    else nextViewLoop name n (i + 1)

/-- The `for i := range cyclableViews` loop of `previousView`, from index `i`
on (`n` iterations left). -/
def previousViewLoop (name : String) : Nat → Int → Scan
  | 0, _ => .target ""
  | n + 1, i =>
    if some name = sliceIndex cyclableViews i then
      match sliceIndex cyclableViews (i - 1) with
      | some t => .target t
      | none => .outOfRange
    else if i = (cyclableViews.length : Int) - 1 then .notListed
    else previousViewLoop name n (i + 1)

/-- The choice of `focusedViewName` in `nextView`. -/
def nextViewScan (v : Option String) : Scan :=
  if v = none ∨ v = sliceIndex cyclableViews ((cyclableViews.length : Int) - 1) then
    match sliceIndex cyclableViews 0 with
    | some t => .target t
    | none => .outOfRange
  else nextViewLoop (v.getD "") cyclableViews.length 0

/-- The choice of `focusedViewName` in `previousView`. -/
def previousViewScan (v : Option String) : Scan :=
  if v = none ∨ v = sliceIndex cyclableViews 0 then
    match sliceIndex cyclableViews ((cyclableViews.length : Int) - 1) with
    | some t => .target t
    | none => .outOfRange
  else previousViewLoop (v.getD "") cyclableViews.length 0

/-- The common tail of `nextView` and `previousView`: log and return when the
view is not listed, else look the target up (`panic(err)` when that fails)
and switch focus to it. -/
def cycleTo (env : Env) (g : Gui) (v : Option String) : Scan → Result
  | .notListed => .ok (g.logInfo ("IssntListOfViews " ++ v.getD ""))
  | .outOfRange => .panic "index out of range" g
  | .target focusedViewName =>
    match g.View focusedViewName with
    | none => .panic "unknown view" g
    | some focusedView => switchFocus env g v (some focusedView.name)

/-- Source `nextView(g, v)`. -/
def nextView (env : Env) (g : Gui) (v : Option String) : Result :=
  cycleTo env g v (nextViewScan v)

/-- Source `previousView(g, v)`. -/
def previousView (env : Env) (g : Gui) (v : Option String) : Result :=
  cycleTo env g v (previousViewScan v)

/-- Source `returnFocus(g, v)`. -/
def returnFocus (env : Env) (g : Gui) (v : Option String) : Result :=
  match g.View g.previousView with
  | some previousView => switchFocus env g v (some previousView.name)
  | none =>
    -- always fall back to files view if there's no 'previous' view stored
    match g.View "files" with
    | some previousView => switchFocus env g v (some previousView.name)
    | none => switchFocus env (g.logInfo "unknown view") v none

/-- The four focus operations, as calls on a state. -/
inductive Call where
  | switchFocus (oldView newView : Option String)
  | nextView (v : Option String)
  | previousView (v : Option String)
  | returnFocus (v : Option String)

/-- Performing one call. -/
def Call.run (env : Env) (g : Gui) : Call → Result
  | .switchFocus o n => Lazygit.switchFocus env g o n
  | .nextView v => Lazygit.nextView env g v
  | .previousView v => Lazygit.previousView env g v
  | .returnFocus v => Lazygit.returnFocus env g v

/-- Performing a sequence of calls, each on the state the one before left;
a panic ends the process, so the calls after it are not performed. -/
def runCalls (env : Env) : List Call → Gui → Gui
  | [], g => g
  | c :: cs, g =>
    match c.run env g with
    | .panic _ g1 => g1
    | r => runCalls env cs r.state

/-- The views whose highlight the focus controller manages. -/
def managedViews : List String := cyclableViews ++ ["main"]

/-- The managed views that exist and have `Highlight = true`. -/
def highlightedManaged (g : Gui) : List String :=
  managedViews.filter fun n => g.highlightOf n == some true

/-- `nextView` applied `n` times, each time from the then-current view. A
call that does not return `nil` ends the iteration with its result. -/
def nextViewTimes (env : Env) : Nat → Gui → Result
  | 0, g => .ok g
  | n + 1, g =>
    match nextViewTimes env n g with
    | .ok g1 => nextView env g1 g1.currentView
    | r => r

/-- `previousView` applied `n` times, each time from the then-current view. -/
def previousViewTimes (env : Env) : Nat → Gui → Result
  | 0, g => .ok g
  | n + 1, g =>
    match previousViewTimes env n g with
    | .ok g1 => previousView env g1 g1.currentView
    | r => r

/-! ## Auxiliary definitions used in the statements -/

/-- The view names for which `newLineFocused` has a case. -/
def knownViews : List String :=
  ["menu", "status", "files", "branches", "commits", "stash", "confirmation",
    "commitMessage", "credentials", "main", "staging"]

/-- The state `switchFocus` has reached when it calls `renderPanelOptions`,
given that the new view is registered. -/
def enterNewView (g1 : Gui) (new : String) : Gui :=
  let g2 := (g1.setHighlight new true).logInfo ("newFocusedViewIs " ++ new)
  let g4 : Gui := { g2 with currentView := some new, order := g2.order.erase new ++ [new] }
  { g4 with cursor := g4.editableOf new }

/-- The `Highlight` flag of the view named `m` after a `switchFocus(old, new)`
that returned `nil`, in terms of the flag `h` before the call: cleared when
`m` is the old view (unless that is `confirmation`), then set when `m` is the
new view, then cleared again by `newLineFocused` when that view is `main`. -/
def highlightAfter (o : Option String) (new m : String) (h : Option Bool) : Option Bool :=
  let h1 := if o = some m ∧ m ≠ "confirmation" then h.map (fun _ => false) else h
  let h2 := if m = new then h1.map (fun _ => true) else h1
  if new = "main" ∧ m = "main" then h2.map (fun _ => false) else h2

/-- Every primary panel is registered with the View Service. -/
def PrimaryPresent (g : Gui) : Prop := ∀ p ∈ cyclableViews, (g.View p).isSome = true

/-- Invariant F1: the previous view is not a second-class panel. -/
def PreviousOk (g : Gui) : Prop :=
  g.previousView ≠ "confirmation" ∧ g.previousView ≠ "menu"

/-- A view of the given name and highlight, 30 columns by 10 rows, empty. -/
def sampleView (name : String) (highlight : Bool) : View :=
  { name := name, x0 := 0, y0 := 0, x1 := 31, y1 := 11, width := 30, height := 10,
    ox := 0, oy := 0, cx := 0, cy := 0, linesHeight := 0, buffer := "",
    highlight := highlight, editable := false }

/-- All panels registered, focus on `files`, no previous view stored. -/
def sampleGui : Gui :=
  { views := [sampleView "status" false, sampleView "files" true, sampleView "branches" false,
      sampleView "commits" false, sampleView "stash" false, sampleView "main" false,
      sampleView "menu" false, sampleView "confirmation" false],
    order := [], currentView := some "files", cursor := false, previousView := "",
    log := [], invoked := [] }

/-- A `files` view of ten rows showing a buffer of three lines. -/
def shortListView : View :=
  { name := "files", x0 := 0, y0 := 0, x1 := 31, y1 := 11, width := 30, height := 10,
    ox := 0, oy := 0, cx := 0, cy := 0, linesHeight := 3, buffer := "a\nb\nc",
    highlight := true, editable := false }

/-- A `files` view of ten rows showing a buffer of a hundred lines. -/
def longListView : View := { shortListView with linesHeight := 100, buffer := "" }

/-! ## Geometry engine (`generalFocusLine`) -/

/-- Source `generalFocusLine(lineNumber, bottomLine, v)`: `.ok v'` is the view
after a `nil` return, `.error e` a returned error. -/
def generalFocusLine (lineNumber bottomLine : Int) (v : View) : Except String View :=
  let height := v.height
  let overScroll := iadd (isub bottomLine height) 1
  let overScroll := if overScroll < 0 then 0 else overScroll
  (v.SetOrigin 0 overScroll).bind fun v1 => v1.SetCursor 0 (isub lineNumber overScroll)

/-! ## Popup resizing (`resizePopupPanel`) -/

/-- The View Service's `Dimensions()` of a view. -/
def View.Dimensions (v : View) : Int × Int × Int × Int := (v.x0, v.y0, v.x1, v.y1)

/-- A request `g.SetView(name, x0, y0, x1, y1, overlaps)` made to the View Service. -/
structure SetViewCall where
  name : String
  x0 : Int
  y0 : Int
  x1 : Int
  y1 : Int
  overlaps : Int
deriving DecidableEq, Repr

/-- Modelled from the spec: the View Service's `setView(name, x0, y0, x1, y1,
flags)` (the terminal library is not part of the sources), used here to
resize: the view of that name takes the new dimensions; asking for a name
that names no view is the not-found error. The size the service derives from
the new dimensions is not modelled. -/
def Gui.SetView (g : Gui) (name : String) (x0 y0 x1 y1 : Int) : Gui × Option String :=
  if (g.View name).isSome then
    ({ g with views := g.views.map fun v =>
        if v.name == name then { v with x0 := x0, y0 := y0, x1 := x1, y1 := y1 } else v },
      none)
  else (g, some "unknown view")

/-- Source `resizePopupPanel(g, v)`, `v` a non-nil view pointer. The layout
oracle `getConfirmationPanelDimensions`, which lives in another panel, is the
parameter `dims`. The second component lists the `SetView` requests issued. -/
def resizePopupPanel (dims : Gui → String → Int × Int × Int × Int) (g : Gui) (v : View) :
    Result × List SetViewCall :=
  let content := v.buffer
  let d := dims g content
  let vd := v.Dimensions
  if vd.1 = d.1 ∧ vd.2.1 = d.2.1 ∧ vd.2.2.1 = d.2.2.1 ∧ vd.2.2.2 = d.2.2.2 then
    (.ok g, [])
  else
    let g1 := g.logInfo "resizingPopupPanel"
    let r := g1.SetView v.name d.1 d.2.1 d.2.2.1 d.2.2.2
    let call : SetViewCall := ⟨v.name, d.1, d.2.1, d.2.2.1, d.2.2.2, 0⟩
    match r.2 with
    | none => (.ok r.1, [call])
    | some e => (.error e r.1, [call])

/-! ## Further sample states -/

/-- No view registered and no previous view stored. -/
def emptyGui : Gui :=
  { views := [], order := [], currentView := none, cursor := false, previousView := "",
    log := [], invoked := [] }

/-- A `files` view of ten rows scrolled to origin `(0, 5)` over a buffer of
three lines. -/
def scrolledShortView : View := { shortListView with oy := 5 }

/-- A `files` view of ten rows scrolled to origin `(0, 5)` over a buffer of a
hundred lines. -/
def scrolledLongView : View := { longListView with oy := 5 }

/-- A confirmation popup whose buffer is `"Sure?"`. -/
def popupView : View :=
  { name := "confirmation", x0 := 10, y0 := 5, x1 := 30, y1 := 7, width := 19, height := 1,
    ox := 0, oy := 0, cx := 0, cy := 0, linesHeight := 1, buffer := "Sure?",
    highlight := false, editable := false }

/-- A layout oracle that always answers the dimensions of `popupView`. -/
def popupDims : Gui → String → Int × Int × Int × Int := fun _ _ => (10, 5, 30, 7)

/-- A `files` view of ten rows over a hundred lines whose origin row is
`2^63 - 6`, so that its last visible row is beyond the range of `int`. -/
def deepView : View := { longListView with oy := 9223372036854775802 }

/-- A three-row view over a hundred lines whose origin is the largest `int`. -/
def farView : View := { longListView with height := 3, oy := 9223372036854775807 }

/-! # Lemmas -/

/-! ## Machine integers and lists -/

theorem wrapInt_of_inInt {x : Int} (h : InInt x) : wrapInt x = x := by
  unfold InInt at h
  unfold wrapInt
  omega

theorem foldl_snoc_eq_map {α β : Type} (f : α → β) (l : List α) (acc : List β) :
    l.foldl (fun acc a => acc ++ [f a]) acc = acc ++ l.map f := by
  induction l generalizing acc with
  | nil => simp
  | cons a l ih => simp [ih]

theorem optionsArray_eq (m : List (String × String)) :
    optionsMapToString m
      = ", ".intercalate (sortStrings (m.map fun kd => kd.1 ++ ": " ++ kd.2)) := by
  unfold optionsMapToString stringsJoin
  simp only [foldl_snoc_eq_map (fun kd : String × String => kd.1 ++ ": " ++ kd.2), List.nil_append]

theorem sortStrings_perm_eq {l₁ l₂ : List String} (h : l₁.Perm l₂) :
    sortStrings l₁ = sortStrings l₂ := by
  unfold sortStrings
  apply List.eq_of_perm_of_sorted (r := (· ≤ ·))
  · exact (List.perm_insertionSort _ l₁).trans (h.trans (List.perm_insertionSort _ l₂).symm)
  · exact List.sorted_insertionSort _ l₁
  · exact List.sorted_insertionSort _ l₂

theorem optionsMapToString_sample :
    optionsMapToString [("q", "quit"), ("h", "help")] = "h: help, q: quit" := by
  have h : ¬ ("q: quit" ≤ "h: help") := by
    rw [String.le_iff_toList_le]
    decide
  have e1 : ("q" ++ ": " ++ "quit" : String) = "q: quit" := by decide
  have e2 : ("h" ++ ": " ++ "help" : String) = "h: help" := by decide
  rw [optionsArray_eq]
  simp only [List.map, e1, e2, sortStrings, List.insertionSort, List.orderedInsert, h, if_false]
  decide

/-! ## The view registry -/

theorem View_name_of_some {g : Gui} {m : String} {v : View} (h : g.View m = some v) :
    v.name = m := by
  unfold Gui.View at h
  have := List.find?_some h
  simpa using this

theorem View_setHighlight (g : Gui) (n m : String) (b : Bool) :
    (g.setHighlight n b).View m
      = (g.View m).map fun v => if v.name == n then { v with highlight := b } else v := by
  unfold Gui.View Gui.setHighlight
  simp only [List.find?_map]
  congr 2
  funext v
  simp only [Function.comp]
  split <;> rfl

theorem highlightOf_setHighlight (g : Gui) (n m : String) (b : Bool) :
    (g.setHighlight n b).highlightOf m
      = if m = n then (g.highlightOf m).map (fun _ => b) else g.highlightOf m := by
  unfold Gui.highlightOf
  rw [View_setHighlight]
  cases h : g.View m with
  | none => simp
  | some v =>
    have hv := View_name_of_some h
    by_cases hm : m = n
    · simp [hv, hm]
    · simp [hv, hm]

theorem isSome_View_eq_highlightOf (g : Gui) (m : String) :
    (g.View m).isSome = (g.highlightOf m).isSome := by
  unfold Gui.highlightOf
  simp

theorem highlightOf_logInfo (g : Gui) (s m : String) :
    (g.logInfo s).highlightOf m = g.highlightOf m := rfl

theorem View_logInfo (g : Gui) (s m : String) : (g.logInfo s).View m = g.View m := rfl

theorem setHighlight_previousView (g : Gui) (n : String) (b : Bool) :
    (g.setHighlight n b).previousView = g.previousView := rfl

theorem setHighlight_currentView (g : Gui) (n : String) (b : Bool) :
    (g.setHighlight n b).currentView = g.currentView := rfl

theorem state_ok (g : Gui) : (Result.ok g).state = g := rfl

theorem state_panic (e : String) (g : Gui) : (Result.panic e g).state = g := rfl

theorem state_error (e : String) (g : Gui) : (Result.error e g).state = g := rfl

theorem isOk_iff {r : Result} : r.isOk = true ↔ r = .ok r.state := by
  cases r <;> simp [Result.isOk, Result.state]

/-! ## Collaborators -/

theorem idle_framed : Env.idle.Framed :=
  ⟨fun _ _ => rfl, fun _ _ => rfl, fun _ _ => rfl, fun _ _ _ => rfl⟩

theorem idle_succeeds : Env.idle.Succeeds := fun _ _ => rfl

theorem call_previousView {env : Env} (hF : env.Framed) (name : String) (g : Gui) :
    (env.call name g).state.previousView = g.previousView := by
  unfold Env.call
  dsimp only
  split <;> simp [Result.state, hF.previousView]

theorem call_currentView {env : Env} (hF : env.Framed) (name : String) (g : Gui) :
    (env.call name g).state.currentView = g.currentView := by
  unfold Env.call
  dsimp only
  split <;> simp [Result.state, hF.currentView]

theorem call_highlightOf {env : Env} (hF : env.Framed) (name : String) (g : Gui) (n : String) :
    (env.call name g).state.highlightOf n = g.highlightOf n := by
  unfold Env.call
  dsimp only
  split <;> simp only [Result.state, hF.highlightOf] <;> rfl

theorem call_isOk {env : Env} (hS : env.Succeeds) (name : String) (g : Gui) :
    env.call name g = .ok (env.call name g).state := by
  unfold Env.call
  dsimp only
  rw [hS]
  rfl

theorem call_not_panic (env : Env) (name : String) (g : Gui) :
    (env.call name g).isPanic = false := by
  unfold Env.call
  dsimp only
  split <;> rfl

theorem renderPanelOptions_previousView {env : Env} (hF : env.Framed) (g : Gui) :
    (renderPanelOptions env g).state.previousView = g.previousView := by
  unfold renderPanelOptions
  split
  · rfl
  · split_ifs <;> exact call_previousView hF _ _

theorem renderPanelOptions_currentView {env : Env} (hF : env.Framed) (g : Gui) :
    (renderPanelOptions env g).state.currentView = g.currentView := by
  unfold renderPanelOptions
  split
  · rfl
  · split_ifs <;> exact call_currentView hF _ _

theorem renderPanelOptions_highlightOf {env : Env} (hF : env.Framed) (g : Gui) (n : String) :
    (renderPanelOptions env g).state.highlightOf n = g.highlightOf n := by
  unfold renderPanelOptions
  split
  · rfl
  · split_ifs <;> exact call_highlightOf hF _ _ _

theorem renderPanelOptions_isOk {env : Env} (hS : env.Succeeds) (g : Gui)
    (hc : g.currentView.isSome) :
    renderPanelOptions env g = .ok (renderPanelOptions env g).state := by
  unfold renderPanelOptions
  split
  · simp_all
  · split_ifs <;> exact call_isOk hS _ _

/-! ## The dispatch of `newLineFocused` -/

theorem newLineFocused_cases (P : Result → Prop) (env : Env) (g : Gui) (name : String)
    (hcall : ∀ h, P (env.call h g)) (hok : P (.ok g))
    (hmain : name = "main" →
      P (.ok ((env.call "refreshMergePanel" g).state.setHighlight name false)))
    (hpanic : name ∉ knownViews →
      P (.panic "NoViewMachingNewLineFocusedSwitchStatement" g)) :
    P (newLineFocused env g name) := by
  unfold newLineFocused
  by_cases h0 : name = "menu"
  · rw [if_pos h0]
    exact hcall _
  rw [if_neg h0]
  by_cases h1 : name = "status"
  · rw [if_pos h1]
    exact hcall _
  rw [if_neg h1]
  by_cases h2 : name = "files"
  · rw [if_pos h2]
    exact hcall _
  rw [if_neg h2]
  by_cases h3 : name = "branches"
  · rw [if_pos h3]
    exact hcall _
  rw [if_neg h3]
  by_cases h4 : name = "commits"
  · rw [if_pos h4]
    exact hcall _
  rw [if_neg h4]
  by_cases h5 : name = "stash"
  · rw [if_pos h5]
    exact hcall _
  rw [if_neg h5]
  by_cases h6 : name = "confirmation"
  · rw [if_pos h6]
    exact hok
  rw [if_neg h6]
  by_cases h7 : name = "commitMessage"
  · rw [if_pos h7]
    exact hcall _
  rw [if_neg h7]
  by_cases h8 : name = "credentials"
  · rw [if_pos h8]
    exact hcall _
  rw [if_neg h8]
  by_cases h9 : name = "main"
  · rw [if_pos h9]
    exact hmain h9
  rw [if_neg h9]
  by_cases h10 : name = "staging"
  · rw [if_pos h10]
    exact hok
  rw [if_neg h10]
  apply hpanic
  simp only [knownViews, List.mem_cons, List.mem_singleton, List.not_mem_nil, or_false]
  intro h
  rcases h with h | h | h | h | h | h | h | h | h | h | h <;> contradiction

theorem newLineFocused_previousView {env : Env} (hF : env.Framed) (g : Gui) (name : String) :
    (newLineFocused env g name).state.previousView = g.previousView := by
  apply newLineFocused_cases (fun r => r.state.previousView = g.previousView)
  · intro h
    exact call_previousView hF h g
  · rfl
  · intro _
    exact call_previousView hF _ g
  · intro _
    rfl

theorem newLineFocused_currentView {env : Env} (hF : env.Framed) (g : Gui) (name : String) :
    (newLineFocused env g name).state.currentView = g.currentView := by
  apply newLineFocused_cases (fun r => r.state.currentView = g.currentView)
  · intro h
    exact call_currentView hF h g
  · rfl
  · intro _
    exact call_currentView hF _ g
  · intro _
    rfl

theorem newLineFocused_main {env : Env} (g : Gui) :
    newLineFocused env g "main"
      = .ok ((env.call "refreshMergePanel" g).state.setHighlight "main" false) := by
  unfold newLineFocused
  simp only [String.reduceEq, if_false, if_true]

theorem newLineFocused_highlightOf {env : Env} (hF : env.Framed) (g : Gui) (name n : String) :
    (newLineFocused env g name).state.highlightOf n
      = if name = "main" ∧ n = "main" then (g.highlightOf n).map (fun _ => false)
        else g.highlightOf n := by
  by_cases hm : name = "main"
  · subst hm
    rw [newLineFocused_main]
    simp only [state_ok, highlightOf_setHighlight, call_highlightOf hF, true_and]
  · simp only [hm, false_and, if_false]
    apply newLineFocused_cases (fun r => r.state.highlightOf n = g.highlightOf n)
    · intro h
      exact call_highlightOf hF h g n
    · rfl
    · intro h
      exact absurd h hm
    · intro _
      rfl

theorem newLineFocused_isOk {env : Env} (hS : env.Succeeds) (g : Gui) (name : String)
    (hk : name ∈ knownViews) :
    (newLineFocused env g name).isOk = true := by
  apply newLineFocused_cases (fun r => r.isOk = true)
  · intro h
    rw [call_isOk hS]
    rfl
  · rfl
  · intro _
    rfl
  · intro h
    exact absurd hk h

/-! ## The transition `switchFocus` -/

theorem leaveOldView_currentView (g : Gui) (o : Option String) :
    (leaveOldView g o).currentView = g.currentView := by
  unfold leaveOldView
  cases o with
  | none => rfl
  | some old =>
    dsimp only
    split
    · split <;> rfl
    · rfl

theorem leaveOldView_previousView (g : Gui) (o : Option String) :
    (leaveOldView g o).previousView
      = match o with
        | none => g.previousView
        | some old =>
          if old ≠ "confirmation" ∧ old ≠ "menu" then old else g.previousView := by
  unfold leaveOldView
  cases o with
  | none => rfl
  | some old =>
    dsimp only
    by_cases h1 : old = "confirmation"
    · simp [h1]
    · by_cases h2 : old = "menu"
      · simp [h2, IncludesString]
        rfl
      · have h1' : ¬ ("confirmation" = old) := fun h => h1 h.symm
        have h2' : ¬ ("menu" = old) := fun h => h2 h.symm
        simp [h1, h2, h1', h2', IncludesString]

theorem leaveOldView_highlightOf (g : Gui) (o : Option String) (m : String) :
    (leaveOldView g o).highlightOf m
      = if o = some m ∧ m ≠ "confirmation" then (g.highlightOf m).map (fun _ => false)
        else g.highlightOf m := by
  unfold leaveOldView
  cases o with
  | none => simp
  | some old =>
    dsimp only
    by_cases h1 : old = "confirmation"
    · subst h1
      simp only [ne_eq, not_true_eq_false, if_false, Option.some.injEq]
      split
      · rename_i h
        exact absurd h.1.symm h.2
      · rfl
    · have key : ((g.setHighlight old false).logInfo ("settingPreviewsViewTo " ++ old)).highlightOf m
          = if some old = some m ∧ m ≠ "confirmation" then (g.highlightOf m).map (fun _ => false)
            else g.highlightOf m := by
        rw [highlightOf_logInfo, highlightOf_setHighlight]
        by_cases hm : m = old
        · subst hm
          simp [h1]
        · have : ¬ old = m := fun h => hm h.symm
          simp [hm, this]
      rw [if_pos h1]
      split
      · exact key
      · exact key

theorem enterNewView_previousView (g : Gui) (new : String) :
    (enterNewView g new).previousView = g.previousView := rfl

theorem enterNewView_currentView (g : Gui) (new : String) :
    (enterNewView g new).currentView = some new := rfl

theorem enterNewView_highlightOf (g : Gui) (new m : String) :
    (enterNewView g new).highlightOf m
      = if m = new then (g.highlightOf m).map (fun _ => true) else g.highlightOf m := by
  have : (enterNewView g new).highlightOf m = (g.setHighlight new true).highlightOf m := rfl
  rw [this, highlightOf_setHighlight]

theorem isSome_View_leaveOldView (g : Gui) (o : Option String) (m : String) :
    ((leaveOldView g o).View m).isSome = (g.View m).isSome := by
  rw [isSome_View_eq_highlightOf, isSome_View_eq_highlightOf, leaveOldView_highlightOf]
  split <;> simp

theorem switchFocus_of_present (env : Env) (g : Gui) (o : Option String) (new : String)
    (hp : (g.View new).isSome = true) :
    switchFocus env g o (some new)
      = match renderPanelOptions env (enterNewView (leaveOldView g o) new) with
        | .ok g6 => newLineFocused env g6 new
        | r => r := by
  have h1 : ((leaveOldView g o).View new).isSome = true := by
    rw [isSome_View_leaveOldView]; exact hp
  have h2 : ((((leaveOldView g o).setHighlight new true).logInfo
      ("newFocusedViewIs " ++ new)).View new).isSome = true := by
    rw [View_logInfo, View_setHighlight]
    simpa using h1
  unfold switchFocus
  simp only [Gui.SetCurrentView, h2, if_true, Gui.SetViewOnTop]
  have h3 : (Gui.View { (((leaveOldView g o).setHighlight new true).logInfo
      ("newFocusedViewIs " ++ new)) with currentView := some new } new).isSome = true := h2
  simp only [h3, if_true]
  rfl

theorem switchFocus_of_absent (env : Env) (g : Gui) (o : Option String) (new : String)
    (hp : (g.View new).isSome = false) :
    switchFocus env g o (some new)
      = .error "unknown view" (((leaveOldView g o).setHighlight new true).logInfo
          ("newFocusedViewIs " ++ new)) := by
  have h1 : ((leaveOldView g o).View new).isSome = false := by
    rw [isSome_View_leaveOldView]; exact hp
  have h2 : ((((leaveOldView g o).setHighlight new true).logInfo
      ("newFocusedViewIs " ++ new)).View new).isSome = false := by
    rw [View_logInfo, View_setHighlight]
    simpa using h1
  unfold switchFocus
  simp only [Gui.SetCurrentView, h2]
  rfl

theorem switchFocus_nil (env : Env) (g : Gui) (o : Option String) :
    switchFocus env g o none = .panic "nil pointer dereference" (leaveOldView g o) := rfl

theorem switchFocus_previousView {env : Env} (hF : env.Framed) (g : Gui)
    (o n : Option String) :
    (switchFocus env g o n).state.previousView = (leaveOldView g o).previousView := by
  cases n with
  | none => rfl
  | some new =>
    cases hp : (g.View new).isSome with
    | false => rw [switchFocus_of_absent env g o new hp]; rfl
    | true =>
      rw [switchFocus_of_present env g o new hp]
      have hr := renderPanelOptions_previousView hF (enterNewView (leaveOldView g o) new)
      cases hq : renderPanelOptions env (enterNewView (leaveOldView g o) new) with
      | ok g6 =>
        rw [hq] at hr
        dsimp only
        rw [newLineFocused_previousView hF]
        exact hr
      | error e g6 => rw [hq] at hr; exact hr
      | panic e g6 => rw [hq] at hr; exact hr

theorem switchFocus_currentView {env : Env} (hF : env.Framed) (g : Gui)
    (o : Option String) (new : String) (hp : (g.View new).isSome = true) :
    (switchFocus env g o (some new)).state.currentView = some new := by
  rw [switchFocus_of_present env g o new hp]
  have hr := renderPanelOptions_currentView hF (enterNewView (leaveOldView g o) new)
  cases hq : renderPanelOptions env (enterNewView (leaveOldView g o) new) with
  | ok g6 =>
    rw [hq] at hr
    dsimp only
    rw [newLineFocused_currentView hF]
    exact hr
  | error e g6 => rw [hq] at hr; exact hr
  | panic e g6 => rw [hq] at hr; exact hr

theorem switchFocus_present_of_ok {env : Env} {g g' : Gui} {o : Option String} {new : String}
    (h : switchFocus env g o (some new) = .ok g') : (g.View new).isSome = true := by
  cases hp : (g.View new).isSome with
  | true => rfl
  | false =>
    rw [switchFocus_of_absent env g o new hp] at h
    cases h

theorem switchFocus_highlightOf {env : Env} (hF : env.Framed) {g g' : Gui}
    {o : Option String} {new : String}
    (h : switchFocus env g o (some new) = .ok g') (m : String) :
    g'.highlightOf m = highlightAfter o new m (g.highlightOf m) := by
  have hp := switchFocus_present_of_ok h
  rw [switchFocus_of_present env g o new hp] at h
  have hr := renderPanelOptions_highlightOf hF (enterNewView (leaveOldView g o) new) m
  cases hq : renderPanelOptions env (enterNewView (leaveOldView g o) new) with
  | ok g6 =>
    rw [hq] at hr h
    dsimp only at h
    have hn := newLineFocused_highlightOf hF g6 new m
    rw [h] at hn
    rw [state_ok] at hn hr
    rw [hn, hr, enterNewView_highlightOf, leaveOldView_highlightOf]
    rfl
  | error e g6 => rw [hq] at h; cases h
  | panic e g6 => rw [hq] at h; cases h

theorem switchFocus_isOk {env : Env} (hS : env.Succeeds) (g : Gui) (o : Option String)
    (new : String) (hp : (g.View new).isSome = true) (hk : new ∈ knownViews) :
    (switchFocus env g o (some new)).isOk = true := by
  rw [switchFocus_of_present env g o new hp]
  have hr := renderPanelOptions_isOk hS (enterNewView (leaveOldView g o) new) rfl
  rw [hr]
  dsimp only
  exact newLineFocused_isOk hS _ new hk

theorem highlightAfter_isSome (o : Option String) (new m : String) (h : Option Bool) :
    (highlightAfter o new m h).isSome = h.isSome := by
  unfold highlightAfter
  dsimp only
  split <;> split <;> split <;> simp

theorem highlightAfter_true_iff (o : Option String) (new m : String) (h : Option Bool)
    (hmc : m ≠ "confirmation") (hnew : m = new → h.isSome = true)
    (hpre : h = some true → o = some m) :
    highlightAfter o new m h = some true ↔ (m = new ∧ new ≠ "main") := by
  unfold highlightAfter
  by_cases h1 : o = some m <;> by_cases h2 : m = new <;> by_cases h3 : new = "main" <;>
    cases h <;> simp_all

theorem highlightedManaged_eq (g : Gui) (new : String) (hn : new ∈ managedViews)
    (h : ∀ m ∈ managedViews, g.highlightOf m = some true ↔ (m = new ∧ new ≠ "main")) :
    highlightedManaged g = if new = "main" then [] else [new] := by
  have hb : ∀ m ∈ managedViews,
      (g.highlightOf m == some true) = decide (m = new ∧ new ≠ "main") := by
    intro m hm
    have := h m hm
    by_cases hq : m = new ∧ new ≠ "main"
    · rw [this.2 hq]
      simp only [hq, BEq.refl, ne_eq, not_false_eq_true, and_self, decide_True]
    · have h' : ¬ g.highlightOf m = some true := fun hh => hq (this.1 hh)
      simp only [hq, decide_False, beq_eq_false_iff_ne, ne_eq]
      exact h'
  unfold highlightedManaged
  rw [List.filter_congr hb]
  simp only [managedViews, cyclableViews, List.cons_append, List.nil_append, List.mem_cons,
    List.mem_singleton, List.not_mem_nil, or_false] at hn ⊢
  rcases hn with h | h | h | h | h | h <;> subst h <;> decide

/-! ## Cycling through the primary panels -/

theorem cyclableViews_subset_known {t : String} (ht : t ∈ cyclableViews) : t ∈ knownViews := by
  simp only [cyclableViews, List.mem_cons, List.mem_singleton, List.not_mem_nil, or_false] at ht
  simp only [knownViews, List.mem_cons, List.mem_singleton, List.not_mem_nil, or_false]
  rcases ht with h | h | h | h | h <;> simp [h]

theorem cycleTo_target {env : Env} (hF : env.Framed) (hS : env.Succeeds) (g : Gui)
    (v : Option String) (t : String) (ht : t ∈ cyclableViews) (hpres : PrimaryPresent g) :
    ∃ g', cycleTo env g v (.target t) = .ok g' ∧ g'.currentView = some t
      ∧ g'.previousView = (leaveOldView g v).previousView
      ∧ (∀ m, g'.highlightOf m = highlightAfter v t m (g.highlightOf m))
      ∧ PrimaryPresent g' := by
  have hp := hpres t ht
  unfold cycleTo
  cases hv : g.View t with
  | none => rw [hv] at hp; cases hp
  | some fv =>
    simp only [hv, View_name_of_some hv]
    have hok := switchFocus_isOk hS g v t hp (cyclableViews_subset_known ht)
    rw [isOk_iff] at hok
    refine ⟨_, hok, switchFocus_currentView hF g v t hp, switchFocus_previousView hF g v _,
      fun m => switchFocus_highlightOf hF hok m, ?_⟩
    intro p hpm
    rw [isSome_View_eq_highlightOf, switchFocus_highlightOf hF hok p, highlightAfter_isSome,
      ← isSome_View_eq_highlightOf]
    exact hpres p hpm

theorem nextViewScan_index (k : Nat) (hk : k < 5) :
    nextViewScan cyclableViews[k]? = .target ((cyclableViews[(k + 1) % 5]?).getD "") := by
  interval_cases k <;> decide

theorem previousViewScan_index (k : Nat) (hk : k < 5) :
    previousViewScan cyclableViews[k]? = .target ((cyclableViews[(k + 4) % 5]?).getD "") := by
  interval_cases k <;> decide

theorem cyclableViews_getD (k : Nat) (hk : k < 5) :
    (cyclableViews[k]?).getD "" ∈ cyclableViews
      ∧ some ((cyclableViews[k]?).getD "") = cyclableViews[k]? := by
  interval_cases k <;> decide

theorem cyclableViews_index_of_mem {p : String} (hp : p ∈ cyclableViews) :
    ∃ k, k < 5 ∧ cyclableViews[k]? = some p := by
  simp only [cyclableViews, List.mem_cons, List.mem_singleton, List.not_mem_nil, or_false] at hp
  rcases hp with h | h | h | h | h
  · exact ⟨0, by omega, by rw [h]; rfl⟩
  · exact ⟨1, by omega, by rw [h]; rfl⟩
  · exact ⟨2, by omega, by rw [h]; rfl⟩
  · exact ⟨3, by omega, by rw [h]; rfl⟩
  · exact ⟨4, by omega, by rw [h]; rfl⟩

theorem cyclableViews_index_inj (j k : Nat) (hj : j < 5) (hk : k < 5) :
    cyclableViews[j]? = cyclableViews[k]? ↔ j = k := by
  interval_cases j <;> interval_cases k <;> decide

theorem nextViewTimes_index {env : Env} (hF : env.Framed) (hS : env.Succeeds) (g : Gui)
    (hpres : PrimaryPresent g) (k : Nat) (hk : k < 5) (hc : g.currentView = cyclableViews[k]?)
    (n : Nat) :
    ∃ g', nextViewTimes env n g = .ok g' ∧ g'.currentView = cyclableViews[(k + n) % 5]?
      ∧ PrimaryPresent g' := by
  induction n with
  | zero =>
    refine ⟨g, rfl, ?_, hpres⟩
    rw [hc, Nat.add_zero, Nat.mod_eq_of_lt hk]
  | succ n ih =>
    obtain ⟨g1, h1, hc1, hp1⟩ := ih
    have hj : (k + n) % 5 < 5 := Nat.mod_lt _ (by omega)
    have hd := cyclableViews_getD (((k + n) % 5 + 1) % 5) (Nat.mod_lt _ (by omega))
    obtain ⟨g2, h2, hc2, -, -, hp2⟩ := cycleTo_target hF hS g1 g1.currentView _ hd.1 hp1
    refine ⟨g2, ?_, ?_, hp2⟩
    · unfold nextViewTimes
      rw [h1]
      dsimp only
      unfold nextView
      rw [hc1, nextViewScan_index _ hj, ← hc1]
      exact h2
    · rw [hc2, hd.2]
      congr 1
      omega

theorem previousViewTimes_index {env : Env} (hF : env.Framed) (hS : env.Succeeds) (g : Gui)
    (hpres : PrimaryPresent g) (k : Nat) (hk : k < 5) (hc : g.currentView = cyclableViews[k]?)
    (n : Nat) :
    ∃ g', previousViewTimes env n g = .ok g'
      ∧ g'.currentView = cyclableViews[(k + 4 * n) % 5]? ∧ PrimaryPresent g' := by
  induction n with
  | zero =>
    refine ⟨g, rfl, ?_, hpres⟩
    rw [hc, Nat.mul_zero, Nat.add_zero, Nat.mod_eq_of_lt hk]
  | succ n ih =>
    obtain ⟨g1, h1, hc1, hp1⟩ := ih
    have hj : (k + 4 * n) % 5 < 5 := Nat.mod_lt _ (by omega)
    have hd := cyclableViews_getD (((k + 4 * n) % 5 + 4) % 5) (Nat.mod_lt _ (by omega))
    obtain ⟨g2, h2, hc2, -, -, hp2⟩ := cycleTo_target hF hS g1 g1.currentView _ hd.1 hp1
    refine ⟨g2, ?_, ?_, hp2⟩
    · unfold previousViewTimes
      rw [h1]
      dsimp only
      unfold previousView
      rw [hc1, previousViewScan_index _ hj, ← hc1]
      exact h2
    · rw [hc2, hd.2]
      congr 1
      omega

theorem sampleGui_primaryPresent : PrimaryPresent sampleGui := by
  unfold PrimaryPresent
  decide

/-! ## Previous-view purity -/

theorem leaveOldView_previousOk {g : Gui} (h : PreviousOk g) (o : Option String) :
    PreviousOk (leaveOldView g o) := by
  unfold PreviousOk at h ⊢
  rw [leaveOldView_previousView]
  cases o with
  | none => exact h
  | some old =>
    dsimp only
    split
    · assumption
    · exact h

theorem switchFocus_previousOk {env : Env} (hF : env.Framed) {g : Gui} (h : PreviousOk g)
    (o n : Option String) : PreviousOk (switchFocus env g o n).state := by
  have := leaveOldView_previousOk h o
  unfold PreviousOk at this ⊢
  rw [switchFocus_previousView hF]
  exact this

theorem cycleTo_previousOk {env : Env} (hF : env.Framed) {g : Gui} (h : PreviousOk g)
    (v : Option String) (s : Scan) : PreviousOk (cycleTo env g v s).state := by
  unfold cycleTo
  cases s with
  | notListed => exact h
  | outOfRange => exact h
  | target t =>
    dsimp only
    split
    · exact h
    · exact switchFocus_previousOk hF h _ _

theorem returnFocus_previousOk {env : Env} (hF : env.Framed) {g : Gui} (h : PreviousOk g)
    (v : Option String) : PreviousOk (returnFocus env g v).state := by
  unfold returnFocus
  split
  · exact switchFocus_previousOk hF h _ _
  · split
    · exact switchFocus_previousOk hF h _ _
    · exact switchFocus_previousOk hF (g := g.logInfo "unknown view") h _ _

theorem run_previousOk {env : Env} (hF : env.Framed) {g : Gui} (h : PreviousOk g)
    (c : Call) : PreviousOk (c.run env g).state := by
  cases c with
  | switchFocus o n => exact switchFocus_previousOk hF h o n
  | nextView v => exact cycleTo_previousOk hF h v _
  | previousView v => exact cycleTo_previousOk hF h v _
  | returnFocus v => exact returnFocus_previousOk hF h v

theorem runCalls_previousOk {env : Env} (hF : env.Framed) (calls : List Call) {g : Gui}
    (h : PreviousOk g) : PreviousOk (runCalls env calls g) := by
  induction calls generalizing g with
  | nil => exact h
  | cons c cs ih =>
    unfold runCalls
    have hc := run_previousOk hF h c
    cases hr : c.run env g with
    | ok g1 => rw [hr] at hc; exact ih hc
    | error e g1 => rw [hr] at hc; exact ih hc
    | panic e g1 => rw [hr] at hc; exact hc

/-! # The claims -/

/-- Claim C1 (cyclic navigation). With every primary panel registered and every
collaborator returning `nil`, start with the focus on a primary panel `p` and
call `nextView` `n` times, each time from the then-current view: every call
returns `nil`, and the focus is on `p` again exactly when `n` is a multiple of
5. The same holds for `previousView`. -/
theorem nextView_previousView_cycle (env : Env) (hF : env.Framed) (hS : env.Succeeds)
    (g : Gui) (hpres : PrimaryPresent g) (p : String) (hp : p ∈ cyclableViews)
    (hc : g.currentView = some p) (n : Nat) :
    (∃ g', nextViewTimes env n g = .ok g' ∧ (g'.currentView = some p ↔ 5 ∣ n))
      ∧ (∃ g', previousViewTimes env n g = .ok g' ∧ (g'.currentView = some p ↔ 5 ∣ n)) := by
  obtain ⟨k, hk, hkp⟩ := cyclableViews_index_of_mem hp
  rw [← hkp] at hc
  constructor
  · obtain ⟨g', h1, h2, -⟩ := nextViewTimes_index hF hS g hpres k hk hc n
    refine ⟨g', h1, ?_⟩
    rw [h2, ← hkp, cyclableViews_index_inj _ _ (Nat.mod_lt _ (by omega)) hk]
    omega
  · obtain ⟨g', h1, h2, -⟩ := previousViewTimes_index hF hS g hpres k hk hc n
    refine ⟨g', h1, ?_⟩
    rw [h2, ← hkp, cyclableViews_index_inj _ _ (Nat.mod_lt _ (by omega)) hk]
    omega

/-- Claim C1 at the sample state: ten steps from `files`, forwards and backwards. -/
theorem nextView_previousView_cycle_witness :
    PrimaryPresent sampleGui ∧ sampleGui.currentView = some "files"
      ∧ (∃ g', nextViewTimes Env.idle 10 sampleGui = .ok g'
          ∧ (g'.currentView = some "files" ↔ 5 ∣ 10))
      ∧ (∃ g', previousViewTimes Env.idle 10 sampleGui = .ok g'
          ∧ (g'.currentView = some "files" ↔ 5 ∣ 10)) :=
  ⟨sampleGui_primaryPresent, rfl,
    nextView_previousView_cycle Env.idle idle_framed idle_succeeds sampleGui
      sampleGui_primaryPresent "files" (by decide) rfl 10⟩

/-- Claim C2 (next/previous inverse). For a primary panel `p`, `nextView` from
`p` returns `nil` and focuses some view `q`, and `previousView` from `q`
returns `nil` and focuses `p` again; likewise with the two functions
exchanged. -/
theorem nextView_previousView_inverse (env : Env) (hF : env.Framed) (hS : env.Succeeds)
    (g : Gui) (hpres : PrimaryPresent g) (p : String) (hp : p ∈ cyclableViews) :
    (∃ g1 q g2, nextView env g (some p) = .ok g1 ∧ g1.currentView = some q
        ∧ previousView env g1 (some q) = .ok g2 ∧ g2.currentView = some p)
      ∧ (∃ g1 q g2, previousView env g (some p) = .ok g1 ∧ g1.currentView = some q
        ∧ nextView env g1 (some q) = .ok g2 ∧ g2.currentView = some p) := by
  obtain ⟨k, hk, hkp⟩ := cyclableViews_index_of_mem hp
  constructor
  · have hd := cyclableViews_getD ((k + 1) % 5) (Nat.mod_lt _ (by omega))
    obtain ⟨g1, h1, hc1, -, -, hp1⟩ := cycleTo_target hF hS g (some p) _ hd.1 hpres
    have hd2 := cyclableViews_getD (((k + 1) % 5 + 4) % 5) (Nat.mod_lt _ (by omega))
    obtain ⟨g2, h2, hc2, -, -, -⟩ := cycleTo_target hF hS g1 g1.currentView _ hd2.1 hp1
    refine ⟨g1, _, g2, ?_, hc1, ?_, ?_⟩
    · unfold nextView
      rw [← hkp, nextViewScan_index k hk, hkp]
      exact h1
    · unfold previousView
      rw [hd.2, previousViewScan_index _ (Nat.mod_lt _ (by omega)), ← hd.2, ← hc1]
      exact h2
    · rw [hc2, hd2.2, ← hkp]
      congr 1
      omega
  · have hd := cyclableViews_getD ((k + 4) % 5) (Nat.mod_lt _ (by omega))
    obtain ⟨g1, h1, hc1, -, -, hp1⟩ := cycleTo_target hF hS g (some p) _ hd.1 hpres
    have hd2 := cyclableViews_getD (((k + 4) % 5 + 1) % 5) (Nat.mod_lt _ (by omega))
    obtain ⟨g2, h2, hc2, -, -, -⟩ := cycleTo_target hF hS g1 g1.currentView _ hd2.1 hp1
    refine ⟨g1, _, g2, ?_, hc1, ?_, ?_⟩
    · unfold previousView
      rw [← hkp, previousViewScan_index k hk, hkp]
      exact h1
    · unfold nextView
      rw [hd.2, nextViewScan_index _ (Nat.mod_lt _ (by omega)), ← hd.2, ← hc1]
      exact h2
    · rw [hc2, hd2.2, ← hkp]
      congr 1
      omega

/-- Claim C2 at the sample state, from `stash` (the wrap-around end of the list). -/
theorem nextView_previousView_inverse_witness :
    (∃ g1 q g2, nextView Env.idle sampleGui (some "stash") = .ok g1 ∧ g1.currentView = some q
        ∧ previousView Env.idle g1 (some q) = .ok g2 ∧ g2.currentView = some "stash")
      ∧ (∃ g1 q g2, previousView Env.idle sampleGui (some "stash") = .ok g1
        ∧ g1.currentView = some q
        ∧ nextView Env.idle g1 (some q) = .ok g2 ∧ g2.currentView = some "stash") :=
  nextView_previousView_inverse Env.idle idle_framed idle_succeeds sampleGui
    sampleGui_primaryPresent "stash" (by decide)

/-- Claim C3 (previous-view purity). From a state whose `PreviousView` is unset,
after any finite sequence of `switchFocus`, `nextView`, `previousView` and
`returnFocus` calls with any old and new views, whatever the outcome of each
call, `State.PreviousView` is neither `"confirmation"` nor `"menu"`. -/
theorem previousView_never_second_class (env : Env) (hF : env.Framed) (calls : List Call)
    (g : Gui) (h0 : g.previousView = "") :
    (runCalls env calls g).previousView ≠ "confirmation"
      ∧ (runCalls env calls g).previousView ≠ "menu" := by
  apply runCalls_previousOk hF calls
  unfold PreviousOk
  rw [h0]
  decide

/-- Claim C3 on a run through the menu and the confirmation panel. -/
theorem previousView_never_second_class_witness :
    (runCalls Env.idle
        [.switchFocus (some "files") (some "menu"), .returnFocus (some "menu"),
          .nextView (some "files"), .switchFocus (some "branches") (some "confirmation"),
          .returnFocus (some "confirmation"), .previousView (some "branches")]
        sampleGui).previousView ≠ "confirmation"
      ∧ (runCalls Env.idle
        [.switchFocus (some "files") (some "menu"), .returnFocus (some "menu"),
          .nextView (some "files"), .switchFocus (some "branches") (some "confirmation"),
          .returnFocus (some "confirmation"), .previousView (some "branches")]
        sampleGui).previousView ≠ "menu" :=
  previousView_never_second_class Env.idle idle_framed _ sampleGui rfl

/-- Claim C4 fails as stated: from the sample state (only `files` highlighted)
`switchFocus(files, main)` returns `nil` and leaves no managed view with
`Highlight = true`, because `newLineFocused` clears the highlight of `main`. -/
theorem switchFocus_to_main_no_highlight :
    (switchFocus Env.idle sampleGui (some "files") (some "main")).isOk = true
      ∧ highlightedManaged (switchFocus Env.idle sampleGui (some "files") (some "main")).state
          = [] := by
  decide

/-- Claim C4 as amended. Let `switchFocus(old, new)` return `nil` from a state
in which no managed view other than `old` is highlighted. Then afterwards
exactly one managed view has `Highlight = true`, namely `new`, when `new` is a
primary panel; and no managed view has it otherwise (`main` has its highlight
cleared by `newLineFocused`, the overlay panels are not managed). -/
theorem switchFocus_highlight_unique (env : Env) (hF : env.Framed) (g g' : Gui)
    (old : Option String) (new : String)
    (hpre : ∀ m ∈ managedViews, g.highlightOf m = some true → old = some m)
    (h : switchFocus env g old (some new) = .ok g') :
    highlightedManaged g' = if new ∈ cyclableViews then [new] else [] := by
  have hp := switchFocus_present_of_ok h
  rw [isSome_View_eq_highlightOf] at hp
  have hiff : ∀ m ∈ managedViews,
      g'.highlightOf m = some true ↔ (m = new ∧ new ≠ "main") := by
    intro m hm
    rw [switchFocus_highlightOf hF h m]
    apply highlightAfter_true_iff
    · intro hc
      subst hc
      revert hm
      decide
    · intro hmn
      rw [hmn]
      exact hp
    · exact hpre m hm
  by_cases hn : new ∈ managedViews
  · rw [highlightedManaged_eq g' new hn hiff]
    simp only [managedViews, cyclableViews, List.cons_append, List.nil_append, List.mem_cons,
      List.mem_singleton, List.not_mem_nil, or_false] at hn ⊢
    rcases hn with e | e | e | e | e | e <;> subst e <;> decide
  · have hc : new ∉ cyclableViews := fun hc => hn (List.mem_append_left _ hc)
    rw [if_neg hc]
    unfold highlightedManaged
    rw [List.filter_eq_nil_iff]
    intro m hm hq
    have hq' : g'.highlightOf m = some true := by simpa using hq
    have := ((hiff m hm).1 hq').1
    rw [this] at hm
    exact hn hm

/-- Claim C4 as amended, at the sample state: `files` to `branches`. -/
theorem switchFocus_highlight_unique_witness :
    highlightedManaged sampleGui = ["files"]
      ∧ switchFocus Env.idle sampleGui (some "files") (some "branches")
          = .ok (switchFocus Env.idle sampleGui (some "files") (some "branches")).state
      ∧ highlightedManaged
          (switchFocus Env.idle sampleGui (some "files") (some "branches")).state
          = if "branches" ∈ cyclableViews then ["branches"] else [] :=
  ⟨by decide, by rfl,
    switchFocus_highlight_unique Env.idle idle_framed sampleGui _ (some "files") "branches"
      (by decide) (by rfl)⟩

/-- Claim C5 fails on the code. In a ten-row view at origin `(0, 0)` whose
buffer has three lines, `focusPoint(0, 20, v)` takes the branch for a
viewport taller than its content and asks for cursor row 20, beyond the last
row 9, so row 20 is not rendered at a screen row in `[0, height - 1]`. The
function's comments ("move it to the last line", "set cursor to max") and
its own branch for a row below the window say otherwise: with a hundred lines
in the same view that branch gives cursor row 9 and origin row 11. -/
theorem focusPoint_cursor_past_viewport :
    focusPoint 0 20 shortListView = .ok { shortListView with cx := 0, cy := 20, ox := 0, oy := 0 }
      ∧ ¬ (∃ v', focusPoint 0 20 shortListView = .ok v'
            ∧ 0 ≤ v'.cy ∧ v'.cy ≤ shortListView.height - 1 ∧ v'.oy + v'.cy = 20)
      ∧ focusPoint 0 20 longListView
          = .ok { longListView with cx := 0, cy := 9, ox := 0, oy := 11 } := by
  have h : focusPoint 0 20 shortListView
      = .ok { shortListView with cx := 0, cy := 20, ox := 0, oy := 0 } := by rfl
  refine ⟨h, ?_, by rfl⟩
  rintro ⟨v', hv, -, h2, -⟩
  rw [h] at hv
  cases hv
  revert h2
  decide

/-- Where `focusPoint` does keep the row visible. For a view of height at least
1 and `cy ≥ 0`, where `cy ≤ height - 1` in case the viewport is taller than
the content (`height - 1 > linesHeight`), `focusPoint(cx, cy, v)` returns
`nil` and leaves `0 ≤ cursor_y ≤ height - 1` and `origin_y + cursor_y = cy`. -/
theorem focusPoint_cursor_visible (v : View) (cx cy : Int)
    (hh : InInt v.height) (ho : InInt v.oy) (hc : InInt cy)
    (hcy : 0 ≤ cy) (h1 : 1 ≤ v.height)
    (htall : v.height - 1 > v.linesHeight → cy ≤ v.height - 1) :
    ∃ v', focusPoint cx cy v = .ok v'
      ∧ 0 ≤ v'.cy ∧ v'.cy ≤ v.height - 1 ∧ v'.oy + v'.cy = cy := by
  unfold InInt at hh ho hc
  unfold focusPoint View.SetCursor View.SetOrigin
  simp only [Except.bind, isub, iadd, wrapInt]
  split_ifs <;> refine ⟨_, rfl, ?_⟩ <;> dsimp only <;> omega

/-- The row stays visible at row 50 of a hundred-line buffer in a ten-row view. -/
theorem focusPoint_cursor_visible_witness :
    ∃ v', focusPoint 0 50 longListView = .ok v'
      ∧ 0 ≤ v'.cy ∧ v'.cy ≤ longListView.height - 1 ∧ v'.oy + v'.cy = 50 :=
  focusPoint_cursor_visible longListView 0 50
    (by decide) (by decide) (by decide) (by decide) (by decide) (by decide)

/-- Claim C6 (selection clamp). For `t ≥ 0` and `s ≥ -1`, after
`refreshSelectedLine(&s, t)` either `t = 0` and the line is `-1`, or the line
is in `[0, t)`; a line `s ≥ t > 0` becomes `t - 1`, and `-1` with `t > 0`
becomes `0`. -/
theorem refreshSelectedLine_clamp (s t : Int) (hs : InInt s) (ht : InInt t)
    (h0 : 0 ≤ t) (h1 : -1 ≤ s) :
    ((t = 0 ∧ refreshSelectedLine s t = -1)
        ∨ (0 ≤ refreshSelectedLine s t ∧ refreshSelectedLine s t < t))
      ∧ (t ≤ s → 0 < t → refreshSelectedLine s t = t - 1)
      ∧ (s = -1 → 0 < t → refreshSelectedLine s t = 0) := by
  unfold InInt at hs ht
  unfold refreshSelectedLine isub wrapInt
  refine ⟨?_, ?_, ?_⟩
  · split_ifs <;> omega
  · intro _ _
    split_ifs <;> omega
  · intro _ _
    split_ifs <;> omega

/-- Claim C6 at `selected = 7`, `total = 3`: the line becomes 2. -/
theorem refreshSelectedLine_clamp_witness :
    refreshSelectedLine 7 3 = 3 - 1 :=
  (refreshSelectedLine_clamp 7 3 (by decide) (by decide) (by decide) (by decide)).2.1
    (by decide) (by decide)

/-- Claim C7. `changeSelectedLine` preserves invariant S1: if `line = -1` or
`0 ≤ line < total`, the same holds of the line after
`changeSelectedLine(&line, total, up)`, for both directions. -/
theorem changeSelectedLine_preserves_S1 (line total : Int) (up : Bool)
    (hl : InInt line) (ht : InInt total) (h : S1 line total) :
    S1 (changeSelectedLine line total up) total := by
  unfold InInt at hl ht
  unfold S1 at h ⊢
  unfold changeSelectedLine isub iadd wrapInt
  cases up <;> simp only [Bool.false_eq_true, if_true, if_false] <;> split_ifs <;> omega

/-- Claim C7 at line 2 of 5, moving down. -/
theorem changeSelectedLine_preserves_S1_witness :
    S1 2 5 ∧ S1 (changeSelectedLine 2 5 false) 5 :=
  ⟨by unfold S1; decide,
   changeSelectedLine_preserves_S1 2 5 false (by decide) (by decide) (by unfold S1; decide)⟩

/-- Claim C8 (options ordering). `optionsMapToString` returns the tokens
`key + ": " + description` of all entries, rearranged in ascending order of
the combined string and joined with `", "`; hence any two iteration orders of
the same entries give the same string. -/
theorem optionsMapToString_sorted_joined (m : List (String × String)) :
    (∃ toks : List String,
        toks.Perm (m.map fun kd => kd.1 ++ ": " ++ kd.2)
          ∧ toks.Sorted (· ≤ ·)
          ∧ optionsMapToString m = ", ".intercalate toks)
      ∧ ∀ m' : List (String × String), m'.Perm m →
          optionsMapToString m' = optionsMapToString m := by
  refine ⟨⟨sortStrings (m.map fun kd => kd.1 ++ ": " ++ kd.2), ?_, ?_, optionsArray_eq m⟩, ?_⟩
  · exact List.perm_insertionSort _ _
  · exact List.sorted_insertionSort _ _
  · intro m' hp
    rw [optionsArray_eq, optionsArray_eq]
    exact congrArg _ (sortStrings_perm_eq (hp.map _))

/-- Claim C8 on the map `q ↦ quit, h ↦ help`: both iteration orders give
`"h: help, q: quit"`. -/
theorem optionsMapToString_sorted_joined_witness :
    optionsMapToString [("h", "help"), ("q", "quit")]
        = optionsMapToString [("q", "quit"), ("h", "help")]
      ∧ optionsMapToString [("q", "quit"), ("h", "help")] = "h: help, q: quit" :=
  ⟨(optionsMapToString_sorted_joined [("q", "quit"), ("h", "help")]).2 _
      (List.Perm.swap _ _ _),
    optionsMapToString_sample⟩

/-- Claim C9. `switchFocus(old, new)` leaves `State.PreviousView` as it was
whenever `old` is `nil` or is named `"confirmation"` or `"menu"`; and
switching `files → menu → branches` ends with `PreviousView = "files"`. -/
theorem switchFocus_second_class_not_stored (env : Env) (hF : env.Framed) (g : Gui) :
    (∀ old new : Option String,
        (old = none ∨ old = some "confirmation" ∨ old = some "menu") →
          (switchFocus env g old new).state.previousView = g.previousView)
      ∧ (switchFocus env (switchFocus env g (some "files") (some "menu")).state
            (some "menu") (some "branches")).state.previousView = "files" := by
  constructor
  · intro old new h
    rw [switchFocus_previousView hF, leaveOldView_previousView]
    rcases h with h | h | h <;> subst h <;> simp
  · rw [switchFocus_previousView hF, leaveOldView_previousView]
    simp only [ne_eq, String.reduceEq, not_false_eq_true, not_true_eq_false, and_false, if_false]
    rw [switchFocus_previousView hF, leaveOldView_previousView]
    simp

/-- Claim C9 at the sample state: `files → menu → branches`. -/
theorem switchFocus_second_class_not_stored_witness :
    (switchFocus Env.idle (switchFocus Env.idle sampleGui (some "files") (some "menu")).state
        (some "menu") (some "branches")).state.previousView = "files"
      ∧ (switchFocus Env.idle (switchFocus Env.idle sampleGui (some "files") (some "menu")).state
        (some "menu") (some "branches")).state.currentView = some "branches" :=
  ⟨(switchFocus_second_class_not_stored Env.idle idle_framed sampleGui).2, by decide⟩

/-- Claim C10. In a state where the `files` view exists, `returnFocus(old)` is
`switchFocus(old, target)` and leaves `target` as the current view, where
`target` is the view named by `State.PreviousView` when that name resolves
and `files` when it does not; an unset `PreviousView` (the empty name, which
names no view) so leads to `files`. -/
theorem returnFocus_target (env : Env) (hF : env.Framed) (g : Gui) (old : Option String)
    (hfiles : (g.View "files").isSome = true) :
    ((g.View g.previousView).isSome = true →
        returnFocus env g old = switchFocus env g old (some g.previousView)
          ∧ (returnFocus env g old).state.currentView = some g.previousView)
      ∧ ((g.View g.previousView).isSome = false →
        returnFocus env g old = switchFocus env g old (some "files")
          ∧ (returnFocus env g old).state.currentView = some "files")
      ∧ (g.previousView = "" → g.View "" = none →
        (returnFocus env g old).state.currentView = some "files") := by
  have hno : (g.View g.previousView).isSome = false →
      returnFocus env g old = switchFocus env g old (some "files")
        ∧ (returnFocus env g old).state.currentView = some "files" := by
    intro hp
    have hnone : g.View g.previousView = none := by
      cases hq : g.View g.previousView with
      | none => rfl
      | some v => rw [hq] at hp; cases hp
    obtain ⟨fv, hfv⟩ := Option.isSome_iff_exists.1 hfiles
    have e : returnFocus env g old = switchFocus env g old (some "files") := by
      unfold returnFocus
      simp only [hnone, hfv, View_name_of_some hfv]
    exact ⟨e, by rw [e]; exact switchFocus_currentView hF g old "files" hfiles⟩
  refine ⟨?_, hno, ?_⟩
  · intro hp
    obtain ⟨pv, hpv⟩ := Option.isSome_iff_exists.1 hp
    have e : returnFocus env g old = switchFocus env g old (some g.previousView) := by
      unfold returnFocus
      simp only [hpv, View_name_of_some hpv]
    exact ⟨e, by rw [e]; exact switchFocus_currentView hF g old _ hp⟩
  · intro hu hempty
    apply (hno _).2
    rw [hu, hempty]
    rfl

/-- Claim C10 at the sample state: `PreviousView` unset, called from `confirmation`. -/
theorem returnFocus_target_witness :
    (sampleGui.View "files").isSome = true ∧ sampleGui.previousView = ""
      ∧ sampleGui.View "" = none
      ∧ (returnFocus Env.idle sampleGui (some "confirmation")).state.currentView
          = some "files" :=
  ⟨by decide, rfl, by decide,
    (returnFocus_target Env.idle idle_framed sampleGui (some "confirmation") (by decide)).2.2
      rfl (by decide)⟩

/-! # Lemmas for the dispatch, the scans and the popup -/

theorem sliceIndex_cyclableViews :
    sliceIndex cyclableViews 0 = some "status" ∧ sliceIndex cyclableViews 1 = some "files"
      ∧ sliceIndex cyclableViews 2 = some "branches"
      ∧ sliceIndex cyclableViews 3 = some "commits"
      ∧ sliceIndex cyclableViews 4 = some "stash" := by
  decide

theorem nextViewScan_not_listed (name : String) (h : name ∉ cyclableViews) :
    nextViewScan (some name) = .notListed := by
  simp only [cyclableViews, List.mem_cons, List.mem_singleton, List.not_mem_nil, or_false,
    not_or] at h
  obtain ⟨h0, h1, h2, h3, h4⟩ := h
  obtain ⟨e0, e1, e2, e3, e4⟩ := sliceIndex_cyclableViews
  have l : (cyclableViews.length : Int) = 5 := rfl
  unfold nextViewScan
  simp only [l, show (5 : Int) - 1 = 4 from rfl, e4, Option.some.injEq, h4, or_false,
    Option.getD_some, if_false]
  simp only [show cyclableViews.length = 5 from rfl, nextViewLoop, l, e0, e1, e2, e3, e4,
    Option.some.injEq, h0, h1, h2, h3, h4, if_false, Int.zero_add,
    show (0 : Int) + 1 = 1 from rfl, show (1 : Int) + 1 = 2 from rfl,
    show (2 : Int) + 1 = 3 from rfl, show (3 : Int) + 1 = 4 from rfl,
    show (5 : Int) - 1 = 4 from rfl, show ¬ ((0 : Int) = 4) by decide,
    show ¬ ((1 : Int) = 4) by decide, show ¬ ((2 : Int) = 4) by decide,
    show ¬ ((3 : Int) = 4) by decide, if_true]
  simp

theorem previousViewScan_not_listed (name : String) (h : name ∉ cyclableViews) :
    previousViewScan (some name) = .notListed := by
  simp only [cyclableViews, List.mem_cons, List.mem_singleton, List.not_mem_nil, or_false,
    not_or] at h
  obtain ⟨h0, h1, h2, h3, h4⟩ := h
  obtain ⟨e0, e1, e2, e3, e4⟩ := sliceIndex_cyclableViews
  have l : (cyclableViews.length : Int) = 5 := rfl
  unfold previousViewScan
  simp only [e0, Option.some.injEq, h0, or_false, Option.getD_some, if_false]
  simp only [show cyclableViews.length = 5 from rfl, previousViewLoop, l, e0, e1, e2, e3, e4,
    Option.some.injEq, h0, h1, h2, h3, h4, if_false, Int.zero_add,
    show (0 : Int) + 1 = 1 from rfl, show (1 : Int) + 1 = 2 from rfl,
    show (2 : Int) + 1 = 3 from rfl, show (3 : Int) + 1 = 4 from rfl,
    show (5 : Int) - 1 = 4 from rfl, show ¬ ((0 : Int) = 4) by decide,
    show ¬ ((1 : Int) = 4) by decide, show ¬ ((2 : Int) = 4) by decide,
    show ¬ ((3 : Int) = 4) by decide, if_true]
  simp

theorem scans_primary (p : String) (hp : p ∈ cyclableViews) :
    (∃ t, t ∈ cyclableViews ∧ nextViewScan (some p) = .target t)
      ∧ (∃ t, t ∈ cyclableViews ∧ previousViewScan (some p) = .target t) := by
  simp only [cyclableViews, List.mem_cons, List.mem_singleton, List.not_mem_nil, or_false] at hp
  rcases hp with h | h | h | h | h <;> subst h <;> decide

theorem loops_unguarded_out_of_range :
    nextViewLoop "stash" cyclableViews.length 0 = .outOfRange
      ∧ previousViewLoop "status" cyclableViews.length 0 = .outOfRange := by
  decide

theorem newLineFocused_panic_of_unknown (env : Env) (g : Gui) (name : String)
    (hk : name ∉ knownViews) :
    newLineFocused env g name = .panic "NoViewMachingNewLineFocusedSwitchStatement" g := by
  simp only [knownViews, List.mem_cons, List.mem_singleton, List.not_mem_nil, or_false,
    not_or] at hk
  obtain ⟨h0, h1, h2, h3, h4, h5, h6, h7, h8, h9, h10⟩ := hk
  unfold newLineFocused
  rw [if_neg h0, if_neg h1, if_neg h2, if_neg h3, if_neg h4, if_neg h5, if_neg h6, if_neg h7,
    if_neg h8, if_neg h9, if_neg h10]

theorem newLineFocused_not_panic_of_known (env : Env) (g : Gui) (name : String)
    (hk : name ∈ knownViews) : (newLineFocused env g name).isPanic = false := by
  apply newLineFocused_cases (fun r => r.isPanic = false)
  · intro h
    exact call_not_panic env h g
  · rfl
  · intro _
    rfl
  · intro h
    exact absurd hk h

theorem newLineFocused_confirmation (env : Env) (g : Gui) :
    newLineFocused env g "confirmation" = .ok g := by
  unfold newLineFocused
  simp only [String.reduceEq, if_false, if_true]

theorem newLineFocused_staging (env : Env) (g : Gui) :
    newLineFocused env g "staging" = .ok g := by
  unfold newLineFocused
  simp only [String.reduceEq, if_false, if_true]

theorem resizePopupPanel_changed (dims : Gui → String → Int × Int × Int × Int) (g : Gui)
    (v : View) (h : v.Dimensions ≠ dims g v.buffer) :
    (resizePopupPanel dims g v).2
      = [⟨v.name, (dims g v.buffer).1, (dims g v.buffer).2.1, (dims g v.buffer).2.2.1,
          (dims g v.buffer).2.2.2, 0⟩] := by
  have hne : ¬ (v.Dimensions.1 = (dims g v.buffer).1 ∧ v.Dimensions.2.1 = (dims g v.buffer).2.1
      ∧ v.Dimensions.2.2.1 = (dims g v.buffer).2.2.1
      ∧ v.Dimensions.2.2.2 = (dims g v.buffer).2.2.2) := by
    rintro ⟨a, b, c, d⟩
    apply h
    ext <;> assumption
  unfold resizePopupPanel
  simp only [hne, if_false]
  split <;> rfl

/-! # The claims, continued -/

/-- Claim C11 fails on the code. When neither `State.PreviousView` nor
`"files"` resolves, `returnFocus(old)` logs the failed lookup and then calls
`switchFocus` with a `nil` new view, whose first use (`newView.Highlight =
true`) is a nil pointer dereference: the call panics instead of completing. -/
theorem returnFocus_unresolved_panics (env : Env) (g : Gui) (old : Option String)
    (hp : g.View g.previousView = none) (hf : g.View "files" = none) :
    returnFocus env g old
        = .panic "nil pointer dereference" (leaveOldView (g.logInfo "unknown view") old)
      ∧ (returnFocus env g old).isPanic = true := by
  have e : returnFocus env g old
      = .panic "nil pointer dereference" (leaveOldView (g.logInfo "unknown view") old) := by
    unfold returnFocus
    simp only [hp, hf]
    rfl
  exact ⟨e, by rw [e]; rfl⟩

/-- Claim C11 at the state with no view registered, called from `confirmation`:
the lookup failure is logged and the call panics. -/
theorem returnFocus_unresolved_panics_witness :
    emptyGui.View emptyGui.previousView = none ∧ emptyGui.View "files" = none
      ∧ (returnFocus Env.idle emptyGui (some "confirmation")).isPanic = true
      ∧ (returnFocus Env.idle emptyGui (some "confirmation")).state.log = ["unknown view"] :=
  ⟨by decide, by decide,
    (returnFocus_unresolved_panics Env.idle emptyGui (some "confirmation")
      (by decide) (by decide)).2,
    by decide⟩

/-- Claim C12. `newLineFocused` panics exactly when the view's name is not one of
`menu`, `status`, `files`, `branches`, `commits`, `stash`, `confirmation`,
`commitMessage`, `credentials`, `main`, `staging`; for `confirmation` and
`staging` it returns `nil` with the state untouched, so no handler was
invoked. -/
theorem newLineFocused_panics_iff (env : Env) (g : Gui) (name : String) :
    ((newLineFocused env g name).isPanic = true ↔ name ∉ knownViews)
      ∧ newLineFocused env g "confirmation" = .ok g
      ∧ newLineFocused env g "staging" = .ok g := by
  refine ⟨⟨?_, ?_⟩, newLineFocused_confirmation env g, newLineFocused_staging env g⟩
  · intro hp hk
    rw [newLineFocused_not_panic_of_known env g name hk] at hp
    cases hp
  · intro hk
    rw [newLineFocused_panic_of_unknown env g name hk]
    rfl

/-- Claim C13. For a non-nil view whose name is not a primary panel, `nextView`
and `previousView` both return `nil`, and the state they leave differs from
the one before only by the logged message: current view, `PreviousView`, the
views with their `Highlight` flags and the record of invoked handlers are as
before. -/
theorem cycle_not_listed_unchanged (env : Env) (g : Gui) (name : String)
    (h : name ∉ cyclableViews) :
    (nextView env g (some name) = .ok (g.logInfo ("IssntListOfViews " ++ name))
        ∧ previousView env g (some name) = .ok (g.logInfo ("IssntListOfViews " ++ name)))
      ∧ (g.logInfo ("IssntListOfViews " ++ name)).currentView = g.currentView
      ∧ (g.logInfo ("IssntListOfViews " ++ name)).previousView = g.previousView
      ∧ (g.logInfo ("IssntListOfViews " ++ name)).views = g.views
      ∧ (∀ n, (g.logInfo ("IssntListOfViews " ++ name)).highlightOf n = g.highlightOf n)
      ∧ (g.logInfo ("IssntListOfViews " ++ name)).invoked = g.invoked := by
  refine ⟨⟨?_, ?_⟩, rfl, rfl, rfl, fun _ => rfl, rfl⟩
  · unfold nextView
    rw [nextViewScan_not_listed name h]
    rfl
  · unfold previousView
    rw [previousViewScan_not_listed name h]
    rfl

/-- Claim C13 at the sample state, from `menu` and from `main`. -/
theorem cycle_not_listed_unchanged_witness :
    nextView Env.idle sampleGui (some "menu")
        = .ok (sampleGui.logInfo ("IssntListOfViews " ++ "menu"))
      ∧ previousView Env.idle sampleGui (some "main")
        = .ok (sampleGui.logInfo ("IssntListOfViews " ++ "main")) :=
  ⟨(cycle_not_listed_unchanged Env.idle sampleGui "menu" (by decide)).1.1,
    (cycle_not_listed_unchanged Env.idle sampleGui "main" (by decide)).1.2⟩

/-- Claim C14. For a view of height at least 1 and `0 ≤ lineNumber ≤ bottomLine`,
`generalFocusLine(lineNumber, bottomLine, v)` returns `nil` with the origin at
`(0, max(0, bottomLine - height + 1))`, the bottom line on screen
(`origin_y ≤ bottomLine ≤ origin_y + height - 1`) and the cursor on the
requested line (`origin_y + cursor_y = lineNumber`). -/
theorem generalFocusLine_geometry (v : View) (lineNumber bottomLine : Int)
    (hh : InInt v.height) (hl : InInt lineNumber) (hb : InInt bottomLine)
    (h1 : 1 ≤ v.height) (h0 : 0 ≤ lineNumber) (hlb : lineNumber ≤ bottomLine) :
    ∃ v', generalFocusLine lineNumber bottomLine v = .ok v'
      ∧ v'.ox = 0 ∧ v'.oy = max 0 (bottomLine - v.height + 1)
      ∧ v'.oy ≤ bottomLine ∧ bottomLine ≤ v'.oy + v.height - 1
      ∧ v'.oy + v'.cy = lineNumber := by
  unfold InInt at hh hl hb
  unfold generalFocusLine View.SetCursor View.SetOrigin
  simp only [Except.bind, isub, iadd, wrapInt]
  refine ⟨_, rfl, rfl, ?_⟩
  dsimp only
  split_ifs <;> omega

/-- Claim C14 at line 45 with bottom line 50 in a ten-row view. -/
theorem generalFocusLine_geometry_witness :
    ∃ v', generalFocusLine 45 50 longListView = .ok v'
      ∧ v'.ox = 0 ∧ v'.oy = max 0 (50 - longListView.height + 1)
      ∧ v'.oy ≤ 50 ∧ 50 ≤ v'.oy + longListView.height - 1
      ∧ v'.oy + v'.cy = 45 :=
  generalFocusLine_geometry longListView 45 50
    (by decide) (by decide) (by decide) (by decide) (by decide) (by decide)

/-- Claim C15 fails as stated. In a ten-row view at origin `(0, 5)` whose buffer
has three lines, row 8 is inside the window, yet `focusPoint(0, 8, v)` takes
the branch for a viewport taller than its content: cursor row 8 and origin
`(0, 0)`. And in a ten-row view at origin row `2^63 - 6` over a hundred lines,
row `2^63 - 4` is inside the window, but the last visible row `oy + ly`
overflows `int`, the test `cy > oy + ly` succeeds and the origin moves. -/
theorem focusPoint_inside_window_tall :
    (focusPoint 0 8 scrolledShortView
        = .ok { scrolledShortView with cx := 0, cy := 8, ox := 0, oy := 0 }
      ∧ scrolledShortView.oy ≤ 8 ∧ 8 ≤ scrolledShortView.oy + scrolledShortView.height - 1
      ∧ ¬ (∃ v', focusPoint 0 8 scrolledShortView = .ok v'
            ∧ v'.ox = scrolledShortView.ox ∧ v'.oy = scrolledShortView.oy
            ∧ v'.cx = 0 ∧ v'.cy = 8 - scrolledShortView.oy))
      ∧ (focusPoint 0 9223372036854775804 deepView
          = .ok { deepView with cx := 0, cy := 9, ox := 0, oy := 9223372036854775795 }
        ∧ deepView.oy ≤ 9223372036854775804
        ∧ 9223372036854775804 ≤ deepView.oy + deepView.height - 1
        ∧ deepView.height - 1 ≤ deepView.linesHeight
        ∧ ¬ (∃ v', focusPoint 0 9223372036854775804 deepView = .ok v'
              ∧ v'.ox = deepView.ox ∧ v'.oy = deepView.oy
              ∧ v'.cx = 0 ∧ v'.cy = 9223372036854775804 - deepView.oy)) := by
  have h : focusPoint 0 8 scrolledShortView
      = .ok { scrolledShortView with cx := 0, cy := 8, ox := 0, oy := 0 } := by rfl
  have h' : focusPoint 0 9223372036854775804 deepView
      = .ok { deepView with cx := 0, cy := 9, ox := 0, oy := 9223372036854775795 } := by rfl
  refine ⟨⟨h, by decide, by decide, ?_⟩, h', by decide, by decide, by decide, ?_⟩
  · rintro ⟨v', hv, -, h2, -⟩
    rw [h] at hv
    cases hv
    revert h2
    decide
  · rintro ⟨v', hv, -, h2, -⟩
    rw [h'] at hv
    cases hv
    revert h2
    decide

/-- Claim C15 as amended. Let `cy ≥ 0` be inside the current window
(`oy ≤ cy ≤ oy + height - 1`, the latter within the range of `int`), and let
the viewport be no taller than the content (`height - 1 ≤ linesHeight`) or
the origin row be 0. Then `focusPoint(cx, cy, v)` returns `nil`, leaves the
origin unchanged and sets the cursor to `(cx, cy - oy)`. -/
theorem focusPoint_inside_window (v : View) (cx cy : Int)
    (hh : InInt v.height) (ho : InInt v.oy) (hc : InInt cy)
    (hw : InInt (v.oy + v.height - 1))
    (hcy : 0 ≤ cy) (hlo : v.oy ≤ cy) (hhi : cy ≤ v.oy + v.height - 1)
    (hcontent : v.height - 1 ≤ v.linesHeight ∨ v.oy = 0) :
    ∃ v', focusPoint cx cy v = .ok v'
      ∧ v'.ox = v.ox ∧ v'.oy = v.oy ∧ v'.cx = cx ∧ v'.cy = cy - v.oy := by
  unfold InInt at hh ho hc hw
  unfold focusPoint View.SetCursor View.SetOrigin
  simp only [Except.bind, isub, iadd, wrapInt]
  split_ifs <;> refine ⟨_, rfl, ?_⟩ <;> dsimp only <;> omega

/-- Claim C15 as amended, at origin `(0, 5)`, height 10, a hundred lines,
`cy = 8`: cursor row 3, origin still `(0, 5)`. -/
theorem focusPoint_inside_window_witness :
    ∃ v', focusPoint 0 8 scrolledLongView = .ok v'
      ∧ v'.ox = 0 ∧ v'.oy = 5 ∧ v'.cx = 0 ∧ v'.cy = 8 - 5 :=
  focusPoint_inside_window scrolledLongView 0 8 (by decide) (by decide) (by decide)
    (by decide) (by decide) (by decide) (by decide) (by decide)

/-- Claim C16 (idempotent resize). When the view's current dimensions equal
those the layout oracle computes from its buffer, `resizePopupPanel` returns
`nil`, issues no `SetView` request and leaves the whole state as it was. -/
theorem resizePopupPanel_unchanged (dims : Gui → String → Int × Int × Int × Int) (g : Gui)
    (v : View) (h : v.Dimensions = dims g v.buffer) :
    resizePopupPanel dims g v = (.ok g, []) := by
  unfold resizePopupPanel
  simp only [h, and_self, if_true]

/-- Claim C16 for a confirmation popup that already has the computed dimensions. -/
theorem resizePopupPanel_unchanged_witness :
    popupView.Dimensions = popupDims sampleGui popupView.buffer
      ∧ resizePopupPanel popupDims sampleGui popupView = (.ok sampleGui, []) :=
  ⟨by decide, resizePopupPanel_unchanged popupDims sampleGui popupView (by decide)⟩

/-- Claim C17. Whatever view `nextView` or `previousView` is called from (`nil`,
a primary panel or any other name), no index expression on `cyclableViews`
is out of range: `cyclableViews[i+1]` is not reached with `i = 4` nor
`cyclableViews[i-1]` with `i = 0`. -/
theorem scans_in_bounds (v : Option String) :
    nextViewScan v ≠ .outOfRange ∧ previousViewScan v ≠ .outOfRange := by
  cases v with
  | none => decide
  | some name =>
    by_cases h : name ∈ cyclableViews
    · obtain ⟨⟨t, -, e1⟩, ⟨u, -, e2⟩⟩ := scans_primary name h
      rw [e1, e2]
      exact ⟨Scan.noConfusion, Scan.noConfusion⟩
    · rw [nextViewScan_not_listed name h, previousViewScan_not_listed name h]
      exact ⟨Scan.noConfusion, Scan.noConfusion⟩

/-- Claim C18. For a view with `height ≥ 1` and `origin_y ≥ 0` and a valid line
index `0 ≤ cy < linesHeight`, `focusPoint(cx, cy, v)` returns `nil` with
`0 ≤ cursor_y ≤ height - 1`, `origin_y ≥ 0`, `origin_y + cursor_y = cy` and
`origin_x` unchanged. The lines height is the number of lines of a buffer
held in memory, hence below `2^62`. -/
theorem focusPoint_valid_geometry (v : View) (cx cy : Int)
    (hh : InInt v.height) (ho : InInt v.oy) (hc : InInt cy)
    (hlen : v.linesHeight < 4611686018427387904)
    (h1 : 1 ≤ v.height) (hoy : 0 ≤ v.oy) (hcy : 0 ≤ cy) (hlines : cy < v.linesHeight) :
    ∃ v', focusPoint cx cy v = .ok v'
      ∧ 0 ≤ v'.cy ∧ v'.cy ≤ v.height - 1 ∧ 0 ≤ v'.oy ∧ v'.oy + v'.cy = cy
      ∧ v'.ox = v.ox := by
  unfold InInt at hh ho hc
  unfold focusPoint View.SetCursor View.SetOrigin
  simp only [Except.bind, isub, iadd, wrapInt]
  split_ifs <;> refine ⟨_, rfl, ?_⟩ <;> dsimp only <;> omega

/-- Claim C18 at row 50 of a hundred-line buffer in a ten-row view scrolled to row 5. -/
theorem focusPoint_valid_geometry_witness :
    ∃ v', focusPoint 0 50 scrolledLongView = .ok v'
      ∧ 0 ≤ v'.cy ∧ v'.cy ≤ scrolledLongView.height - 1 ∧ 0 ≤ v'.oy ∧ v'.oy + v'.cy = 50
      ∧ v'.ox = scrolledLongView.ox :=
  focusPoint_valid_geometry scrolledLongView 0 50 (by decide) (by decide) (by decide)
    (by decide) (by decide) (by decide) (by decide) (by decide)

/-- Claim C19 fails as stated. In a three-row view at origin row `2^63 - 1`,
`focusPoint` to row `cy = 2^63 - 2` first puts the origin on `cy` with cursor
row 0; called again, `oy + ly` overflows `int`, the test `cy > oy + ly`
succeeds, and the cursor moves to row 2 with the origin on `cy - 2`. -/
theorem focusPoint_overflow_not_idempotent :
    focusPoint 0 9223372036854775806 farView
        = .ok { farView with cx := 0, cy := 0, ox := 0, oy := 9223372036854775806 }
      ∧ focusPoint 0 9223372036854775806
          { farView with cx := 0, cy := 0, ox := 0, oy := 9223372036854775806 }
        = .ok { farView with cx := 0, cy := 2, ox := 0, oy := 9223372036854775804 }
      ∧ 1 ≤ farView.height
      ∧ ¬ (∃ v1, focusPoint 0 9223372036854775806 farView = .ok v1
            ∧ focusPoint 0 9223372036854775806 v1 = .ok v1) := by
  have h1 : focusPoint 0 9223372036854775806 farView
      = .ok { farView with cx := 0, cy := 0, ox := 0, oy := 9223372036854775806 } := by rfl
  have h2 : focusPoint 0 9223372036854775806
        { farView with cx := 0, cy := 0, ox := 0, oy := 9223372036854775806 }
      = .ok { farView with cx := 0, cy := 2, ox := 0, oy := 9223372036854775804 } := by rfl
  refine ⟨h1, h2, by decide, ?_⟩
  rintro ⟨v1, e1, e2⟩
  rw [h1] at e1
  cases e1
  rw [h2] at e2
  have := congrArg (fun r => r.toOption.map fun v => v.cy) e2
  revert this
  decide

/-- Claim C19 as amended. For a view with `height ≥ 1` and a row `cy` with
`cy + height - 1` within the range of `int`, `focusPoint(cx, cy, v)` returns
`nil`, and calling it again on the result returns `nil` with the same view:
same cursor and same origin. -/
theorem focusPoint_idempotent (v : View) (cx cy : Int)
    (hh : InInt v.height) (hc : InInt cy) (hs : InInt (cy + v.height - 1))
    (h1 : 1 ≤ v.height) :
    ∃ v1, focusPoint cx cy v = .ok v1 ∧ focusPoint cx cy v1 = .ok v1 := by
  unfold InInt at hh hc hs
  by_cases hneg : cy < 0
  · refine ⟨v, ?_, ?_⟩ <;> simp only [focusPoint, hneg, if_true]
  have hly : isub v.height 1 = v.height - 1 := by
    unfold isub wrapInt
    omega
  by_cases htall : isub v.height 1 > v.linesHeight
  · refine ⟨{ v with cx := cx, cy := cy, ox := v.ox, oy := 0 }, ?_, ?_⟩
    · simp only [focusPoint, hneg, htall, if_true, if_false, View.SetCursor, View.SetOrigin,
        Except.bind]
    · simp only [focusPoint, hneg, htall, if_true, if_false, View.SetCursor, View.SetOrigin,
        Except.bind]
  by_cases habove : cy < v.oy
  · refine ⟨{ v with cx := cx, cy := 0, ox := v.ox, oy := cy }, ?_, ?_⟩
    · simp only [focusPoint, hneg, htall, habove, if_true, if_false, View.SetCursor,
        View.SetOrigin, Except.bind]
    · have e1 : ¬ (cy < cy) := by omega
      have e2 : ¬ (cy > iadd cy (isub v.height 1)) := by
        rw [hly]
        unfold iadd wrapInt
        omega
      have e3 : isub cy cy = 0 := by
        unfold isub wrapInt
        omega
      simp only [focusPoint, hneg, htall, e1, e2, e3, if_false, View.SetCursor]
  by_cases hbelow : cy > iadd v.oy (isub v.height 1)
  · refine ⟨
      { v with cx := cx, cy := isub v.height 1, ox := v.ox, oy := isub cy (isub v.height 1) },
      ?_, ?_⟩
    · simp only [focusPoint, hneg, htall, habove, hbelow, if_true, if_false, View.SetCursor,
        View.SetOrigin, Except.bind]
    · have e0 : isub cy (isub v.height 1) = cy - (v.height - 1) := by
        rw [hly]
        unfold isub wrapInt
        omega
      have e1 : ¬ (cy < isub cy (isub v.height 1)) := by
        rw [e0]
        omega
      have e2 : ¬ (cy > iadd (isub cy (isub v.height 1)) (isub v.height 1)) := by
        rw [e0, hly]
        unfold iadd wrapInt
        omega
      have e3 : isub cy (isub cy (isub v.height 1)) = isub v.height 1 := by
        rw [e0, hly]
        unfold isub wrapInt
        omega
      simp only [focusPoint, hneg, htall, e1, e2, e3, if_false, View.SetCursor]
  · refine ⟨{ v with cx := cx, cy := isub cy v.oy }, ?_, ?_⟩
    · simp only [focusPoint, hneg, htall, habove, hbelow, if_false, View.SetCursor]
    · simp only [focusPoint, hneg, htall, habove, hbelow, if_false, View.SetCursor]

/-- Claim C19 as amended, at row 2 of a view scrolled to row 5. -/
theorem focusPoint_idempotent_witness :
    ∃ v1, focusPoint 0 2 scrolledLongView = .ok v1 ∧ focusPoint 0 2 v1 = .ok v1 :=
  focusPoint_idempotent scrolledLongView 0 2 (by decide) (by decide) (by decide) (by decide)

/-- Claim C20. `refreshSelectedLine` is idempotent: applied twice with the same
total it gives the line it gives applied once; and a line already in range
(`0 ≤ line < total`) is left unchanged. -/
theorem refreshSelectedLine_idempotent (line total : Int) (hl : InInt line)
    (ht : InInt total) :
    refreshSelectedLine (refreshSelectedLine line total) total = refreshSelectedLine line total
      ∧ (0 ≤ line → line < total → refreshSelectedLine line total = line) := by
  unfold InInt at hl ht
  constructor
  · unfold refreshSelectedLine isub wrapInt
    split_ifs <;> omega
  · intro _ _
    unfold refreshSelectedLine isub wrapInt
    split_ifs <;> omega

/-- Claim C20 at `line = 7`, `total = 3`, and at the in-range line 1 of 3. -/
theorem refreshSelectedLine_idempotent_witness :
    refreshSelectedLine (refreshSelectedLine 7 3) 3 = refreshSelectedLine 7 3
      ∧ refreshSelectedLine 1 3 = 1 :=
  ⟨(refreshSelectedLine_idempotent 7 3 (by decide) (by decide)).1,
    (refreshSelectedLine_idempotent 1 3 (by decide) (by decide)).2 (by decide) (by decide)⟩

end Lazygit
